import Mathlib

/-!
# A shallow embedding of `server.js`

The program is an Express application over one SQLite connection.  Every route
handler validates the request body, issues at most one parameterised statement
and answers with a JSON value.  The embedding has three layers:

* the rows and tables of the schema created at start-up (`Db`);
* the nine statements the handlers issue, as functions on `Db` that follow the
  engine's documented behaviour for this schema (`Db.insertMiembro`, ...);
* the nine handlers, as functions from a store and a request to a `Reply`
  (the JSON answer, the store afterwards, the statements that were issued).

Conventions.

* Request fields are taken at the type the data model gives them: a text field
  is absent or a string, an id field is absent or an integer.  The route
  parameter of `/api/comentarios/:id` is taken at the type of the column it is
  compared with.
* `POST /api/registro` is embedded a second time on an arbitrary parsed body
  (`postRegistroJson`, over `JsVal`), where a field can also be `null`, a
  boolean, a number, an object or an array; on text fields it agrees with
  `postRegistro` (`postRegistroJson_toJson`).
* `bcryptjs` is a parameter (`Bcrypt`); the salt drawn by `hashSync` and the
  value of `datetime('now')` are arguments of the handlers that use them.
* Engine failures that do not come from the schema (I/O errors, a full disk,
  an exhausted rowid space) are outside the model: a `SELECT` always answers
  and an `INSERT` fails only on a constraint.
* Callbacks are run at once: a handler is one atomic step.
-/

namespace Server

/-! ## Rows and tables -/

/-- Row of `miembros(id, nombre, email UNIQUE, password)`. -/
structure Miembro where
  id : Int
  nombre : String
  email : String
  password : String
deriving DecidableEq, Repr

/-- Row of `publicaciones(id, usuario_id, contenido, fecha)`. -/
structure Publicacion where
  id : Int
  usuario_id : Int
  contenido : String
  fecha : String
deriving DecidableEq, Repr

/-- Row of `comentarios(id, usuario_id, publicacion_id, comentario, fecha)`. -/
structure Comentario where
  id : Int
  usuario_id : Int
  publicacion_id : Int
  comentario : String
  fecha : String
deriving DecidableEq, Repr

/-- Row of `comentarios_sobre_mi(id, usuario_id, comentario, fecha)`. -/
structure ComentarioSobreMi where
  id : Int
  usuario_id : Int
  comentario : String
  fecha : String
deriving DecidableEq, Repr

/-- The database file: the four tables, each in rowid order, and the engine's
`sqlite_sequence` entry of each `AUTOINCREMENT` table (the largest rowid the
table has ever held). -/
structure Db where
  miembros : List Miembro
  publicaciones : List Publicacion
  comentarios : List Comentario
  comentarios_sobre_mi : List ComentarioSobreMi
  seq_miembros : Int
  seq_publicaciones : Int
  seq_comentarios : Int
  seq_comentarios_sobre_mi : Int
deriving DecidableEq, Repr

/-- The database right after the `CREATE TABLE IF NOT EXISTS` block has run on
a fresh file. -/
def Db.empty : Db := ⟨[], [], [], [], 0, 0, 0, 0⟩

/-- The four tables of the schema. -/
inductive Table
  | miembros
  | publicaciones
  | comentarios
  | comentarios_sobre_mi
deriving DecidableEq, Repr

/-- The ids held by a table, in rowid order. -/
def Db.ids (db : Db) : Table → List Int
  | .miembros => db.miembros.map (·.id)
  | .publicaciones => db.publicaciones.map (·.id)
  | .comentarios => db.comentarios.map (·.id)
  | .comentarios_sobre_mi => db.comentarios_sobre_mi.map (·.id)

/-- The `sqlite_sequence` entry of a table. -/
def Db.seq (db : Db) : Table → Int
  | .miembros => db.seq_miembros
  | .publicaciones => db.seq_publicaciones
  | .comentarios => db.seq_comentarios
  | .comentarios_sobre_mi => db.seq_comentarios_sobre_mi

/-! ## The engine -/

/-- The errors the engine can raise for this schema. -/
inductive SqliteError
  | uniqueFailed
  | foreignKeyFailed
deriving DecidableEq, Repr

/-- The `message` property of the error object handed to a callback. -/
def SqliteError.message : SqliteError → String
  | .uniqueFailed => "SQLITE_CONSTRAINT: UNIQUE constraint failed: miembros.email"
  | .foreignKeyFailed => "SQLITE_CONSTRAINT: FOREIGN KEY constraint failed"

/-- The connection's `foreign_keys` setting.  SQLite leaves foreign-key
enforcement off on every new connection until `PRAGMA foreign_keys = ON` is
run on it; the program opens the connection with `new sqlite3.Database(...)`
and never runs that pragma. -/
def foreign_keys : Bool := false

/-- The rowid an `INTEGER PRIMARY KEY AUTOINCREMENT` table gives to a new row:
one more than the largest rowid the table holds or has ever held (1 for a
table that never held a row). -/
def newRowid (ids : List Int) (seq : Int) : Int :=
  max (ids.foldr (fun i acc => max (i + 1) acc) 1) (seq + 1)

/-- Statement `INSERT INTO miembros(nombre, email, password) VALUES(?, ?, ?)`.
Answers `lastID` and the new database, or the constraint error. -/
def Db.insertMiembro (db : Db) (nombre email password : String) :
    Except SqliteError (Int × Db) :=
  if ∃ m ∈ db.miembros, m.email = email then .error .uniqueFailed
  else
    let id := newRowid (db.miembros.map (·.id)) db.seq_miembros
    .ok (id, { db with miembros := db.miembros ++ [⟨id, nombre, email, password⟩],
                       seq_miembros := id })

/-- Statement `INSERT INTO publicaciones(usuario_id, contenido, fecha)
VALUES(?, ?, datetime('now'))`. -/
def Db.insertPublicacion (db : Db) (usuario_id : Int) (contenido now : String) :
    Except SqliteError (Int × Db) :=
  if foreign_keys = true ∧ ¬ ∃ m ∈ db.miembros, m.id = usuario_id then
    .error .foreignKeyFailed
  else
    let id := newRowid (db.publicaciones.map (·.id)) db.seq_publicaciones
    .ok (id, { db with publicaciones := db.publicaciones ++ [⟨id, usuario_id, contenido, now⟩],
                       seq_publicaciones := id })

/-- Statement `INSERT INTO comentarios(usuario_id, publicacion_id, comentario, fecha)
VALUES(?, ?, ?, datetime('now'))`. -/
def Db.insertComentario (db : Db) (usuario_id publicacion_id : Int)
    (comentario now : String) : Except SqliteError (Int × Db) :=
  if foreign_keys = true ∧ ¬ ((∃ m ∈ db.miembros, m.id = usuario_id) ∧
      ∃ p ∈ db.publicaciones, p.id = publicacion_id) then
    .error .foreignKeyFailed
  else
    let id := newRowid (db.comentarios.map (·.id)) db.seq_comentarios
    .ok (id, { db with
      comentarios := db.comentarios ++ [⟨id, usuario_id, publicacion_id, comentario, now⟩],
      seq_comentarios := id })

/-- Statement `INSERT INTO comentarios_sobre_mi(usuario_id, comentario, fecha)
VALUES(?, ?, datetime('now'))`. -/
def Db.insertComentarioSobreMi (db : Db) (usuario_id : Int) (comentario now : String) :
    Except SqliteError (Int × Db) :=
  if foreign_keys = true ∧ ¬ ∃ m ∈ db.miembros, m.id = usuario_id then
    .error .foreignKeyFailed
  else
    let id := newRowid (db.comentarios_sobre_mi.map (·.id)) db.seq_comentarios_sobre_mi
    .ok (id, { db with
      comentarios_sobre_mi := db.comentarios_sobre_mi ++ [⟨id, usuario_id, comentario, now⟩],
      seq_comentarios_sobre_mi := id })

/-- Statement `SELECT id, nombre, email, password FROM miembros WHERE email = ?` through
`db.get`: the first matching row, if any. -/
def Db.getMiembroByEmail (db : Db) (email : String) : Except SqliteError (Option Miembro) :=
  .ok (db.miembros.find? (fun m => decide (m.email = email)))

/-- Result row of `SELECT id, nombre FROM miembros`. -/
structure MiembroRow where
  id : Int
  nombre : String
deriving DecidableEq, Repr

/-- Statement `SELECT id, nombre FROM miembros WHERE nombre = ?` through `db.get`: the
first matching row, if any. -/
def Db.getMiembroByNombre (db : Db) (nombre : String) :
    Except SqliteError (Option MiembroRow) :=
  .ok ((db.miembros.find? (fun m => decide (m.nombre = nombre))).map
    (fun m => ⟨m.id, m.nombre⟩))

/-- Result row `{id, contenido, fecha, nombre}` of the feed query. -/
structure PublicacionRow where
  id : Int
  contenido : String
  fecha : String
  nombre : String
deriving DecidableEq, Repr

/-- Result row `{id, comentario, fecha, nombre}` of both comment queries. -/
structure ComentarioRow where
  id : Int
  comentario : String
  fecha : String
  nombre : String
deriving DecidableEq, Repr

/-- Ordering `ORDER BY publicaciones.id DESC` on feed rows. -/
def PublicacionRow.desc (a b : PublicacionRow) : Prop := b.id ≤ a.id

/-- Ordering `ORDER BY <table>.id DESC` on comment rows. -/
def ComentarioRow.desc (a b : ComentarioRow) : Prop := b.id ≤ a.id

instance : DecidableRel PublicacionRow.desc := fun a b => Int.decLe b.id a.id

instance : DecidableRel ComentarioRow.desc := fun a b => Int.decLe b.id a.id

/-- The rows of `publicaciones JOIN miembros ON publicaciones.usuario_id =
miembros.id`, before ordering. -/
def Db.joinPublicaciones (db : Db) : List PublicacionRow :=
  db.publicaciones.flatMap fun p =>
    (db.miembros.filter fun m => decide (p.usuario_id = m.id)).map fun m =>
      ⟨p.id, p.contenido, p.fecha, m.nombre⟩

/-- Statement `SELECT publicaciones.id, contenido, fecha, miembros.nombre FROM
publicaciones JOIN miembros ON publicaciones.usuario_id = miembros.id
ORDER BY publicaciones.id DESC`. -/
def Db.allPublicaciones (db : Db) : Except SqliteError (List PublicacionRow) :=
  .ok (db.joinPublicaciones.insertionSort PublicacionRow.desc)

/-- The rows of `comentarios JOIN miembros ON comentarios.usuario_id =
miembros.id WHERE publicacion_id = ?`, before ordering. -/
def Db.joinComentarios (db : Db) (publicacionID : Int) : List ComentarioRow :=
  (db.comentarios.filter fun c => decide (c.publicacion_id = publicacionID)).flatMap fun c =>
    (db.miembros.filter fun m => decide (c.usuario_id = m.id)).map fun m =>
      ⟨c.id, c.comentario, c.fecha, m.nombre⟩

/-- Statement `SELECT comentarios.id, comentario, fecha, miembros.nombre FROM comentarios
JOIN miembros ON comentarios.usuario_id = miembros.id WHERE publicacion_id = ?
ORDER BY comentarios.id DESC`. -/
def Db.allComentarios (db : Db) (publicacionID : Int) :
    Except SqliteError (List ComentarioRow) :=
  .ok ((db.joinComentarios publicacionID).insertionSort ComentarioRow.desc)

/-- The rows of `comentarios_sobre_mi JOIN miembros ON
comentarios_sobre_mi.usuario_id = miembros.id`, before ordering. -/
def Db.joinComentariosSobreMi (db : Db) : List ComentarioRow :=
  db.comentarios_sobre_mi.flatMap fun c =>
    (db.miembros.filter fun m => decide (c.usuario_id = m.id)).map fun m =>
      ⟨c.id, c.comentario, c.fecha, m.nombre⟩

/-- Statement `SELECT comentarios_sobre_mi.id, comentario, fecha, miembros.nombre FROM
comentarios_sobre_mi JOIN miembros ON comentarios_sobre_mi.usuario_id =
miembros.id ORDER BY comentarios_sobre_mi.id DESC`. -/
def Db.allComentariosSobreMi (db : Db) : Except SqliteError (List ComentarioRow) :=
  .ok (db.joinComentariosSobreMi.insertionSort ComentarioRow.desc)

/-! ## The JavaScript side -/

/-- The two `bcryptjs` functions the program calls.  `hashSync` draws a fresh
salt on every call; the draw is its third argument here. -/
structure Bcrypt where
  hashSync : String → Nat → Nat → String
  compareSync : String → String → Bool

/-- JavaScript `String.prototype.includes` on character lists. -/
def includesChars (sub : List Char) : List Char → Bool
  | [] => sub.isEmpty
  | c :: cs => sub.isPrefixOf (c :: cs) || includesChars sub cs

/-- JavaScript `s.includes(sub)`. -/
def includes (s sub : String) : Bool := includesChars sub.toList s.toList

/-- JavaScript `!x` for a text field of the body: absent and `""` are falsy. -/
def notStr : Option String → Bool
  | none => true
  | some s => decide (s = "")

/-- JavaScript `!x` for an id field of the body: absent and `0` are falsy. -/
def notInt : Option Int → Bool
  | none => true
  | some n => decide (n = 0)

/-- Body of `POST /api/registro`. -/
structure RegistroBody where
  nombre : Option String
  email : Option String
  password : Option String
deriving DecidableEq, Repr

/-- Body of `POST /api/login`. -/
structure LoginBody where
  email : Option String
  password : Option String
deriving DecidableEq, Repr

/-- Body of `POST /api/publicar`. -/
structure PublicarBody where
  usuario_id : Option Int
  contenido : Option String
deriving DecidableEq, Repr

/-- Body of `POST /api/comentar`. -/
structure ComentarBody where
  usuario_id : Option Int
  publicacion_id : Option Int
  comentario : Option String
deriving DecidableEq, Repr

/-- Body of `POST /api/comentario-sobre-mi`. -/
structure ComentarioSobreMiBody where
  usuario_id : Option Int
  comentario : Option String
deriving DecidableEq, Repr

/-- The JSON values the handlers answer with. -/
inductive Res
  /-- The object `{ success: false, message }` -/
  | fail (message : String)
  /-- The object `{ success: false }` -/
  | failure
  /-- The object `{ success: true, id }` -/
  | ok (id : Int)
  /-- The object `{ success: true, id, nombre }` -/
  | okLogin (id : Int) (nombre : String)
  /-- The object `{ exists: false }` -/
  | notExists
  /-- The object `{ exists: true, id, nombre }` -/
  | existe (id : Int) (nombre : String)
  /-- An array of feed rows. -/
  | publicaciones (rows : List PublicacionRow)
  /-- An array of comment rows. -/
  | comentarios (rows : List ComentarioRow)
deriving DecidableEq, Repr

/-- The statements of the program. -/
inductive Sql
  | insertMiembro
  | selectMiembroByEmail
  | selectMiembroByNombre
  | insertPublicacion
  | selectPublicaciones
  | insertComentario
  | selectComentarios
  | insertComentarioSobreMi
  | selectComentariosSobreMi
deriving DecidableEq, Repr

/-- What a handler does: the JSON it answers with, the database afterwards and
the statements it sent to the engine. -/
structure Reply where
  res : Res
  db : Db
  issued : List Sql
deriving DecidableEq, Repr

/-! ## The handlers -/

/-- Handler of `POST /api/registro`. -/
def postRegistro (B : Bcrypt) (db : Db) (body : RegistroBody) (salt : Nat) : Reply :=
  if notStr body.nombre || notStr body.email || notStr body.password then
    ⟨.fail "Faltan datos", db, []⟩
  else
    let hash := B.hashSync (body.password.getD "") 10 salt
    match db.insertMiembro (body.nombre.getD "") (body.email.getD "") hash with
    | .error err =>
      if includes err.message "UNIQUE" then
        ⟨.fail "Ese correo ya está registrado", db, [.insertMiembro]⟩
      else ⟨.fail "Error base datos", db, [.insertMiembro]⟩
    | .ok (lastID, db') => ⟨.ok lastID, db', [.insertMiembro]⟩

/-- Handler of `POST /api/login`. -/
def postLogin (B : Bcrypt) (db : Db) (body : LoginBody) : Reply :=
  if notStr body.email || notStr body.password then ⟨.fail "Faltan datos", db, []⟩
  else
    match db.getMiembroByEmail (body.email.getD "") with
    | .error _ => ⟨.fail "Error BD", db, [.selectMiembroByEmail]⟩
    | .ok none => ⟨.fail "Usuario no encontrado", db, [.selectMiembroByEmail]⟩
    | .ok (some row) =>
      let isMatch := B.compareSync (body.password.getD "") row.password
      if !isMatch then ⟨.fail "Contraseña incorrecta", db, [.selectMiembroByEmail]⟩
      else ⟨.okLogin row.id row.nombre, db, [.selectMiembroByEmail]⟩

/-- Handler of `GET /api/buscar-usuario/:nombre`. -/
def getBuscarUsuario (db : Db) (nombre : String) : Reply :=
  match db.getMiembroByNombre nombre with
  | .error _ => ⟨.notExists, db, [.selectMiembroByNombre]⟩
  | .ok none => ⟨.notExists, db, [.selectMiembroByNombre]⟩
  | .ok (some row) => ⟨.existe row.id row.nombre, db, [.selectMiembroByNombre]⟩

/-- Handler of `POST /api/publicar`. -/
def postPublicar (db : Db) (body : PublicarBody) (now : String) : Reply :=
  if notInt body.usuario_id || notStr body.contenido then ⟨.failure, db, []⟩
  else
    match db.insertPublicacion (body.usuario_id.getD 0) (body.contenido.getD "") now with
    | .error _ => ⟨.failure, db, [.insertPublicacion]⟩
    | .ok (lastID, db') => ⟨.ok lastID, db', [.insertPublicacion]⟩

/-- Handler of `GET /api/publicaciones`. -/
def getPublicaciones (db : Db) : Reply :=
  match db.allPublicaciones with
  | .error _ => ⟨.publicaciones [], db, [.selectPublicaciones]⟩
  | .ok rows => ⟨.publicaciones rows, db, [.selectPublicaciones]⟩

/-- Handler of `POST /api/comentar`. -/
def postComentar (db : Db) (body : ComentarBody) (now : String) : Reply :=
  if notInt body.usuario_id || notInt body.publicacion_id || notStr body.comentario then
    ⟨.failure, db, []⟩
  else
    match db.insertComentario (body.usuario_id.getD 0) (body.publicacion_id.getD 0)
        (body.comentario.getD "") now with
    | .error _ => ⟨.failure, db, [.insertComentario]⟩
    | .ok (lastID, db') => ⟨.ok lastID, db', [.insertComentario]⟩

/-- Handler of `GET /api/comentarios/:id`. -/
def getComentarios (db : Db) (publicacionID : Int) : Reply :=
  match db.allComentarios publicacionID with
  | .error _ => ⟨.comentarios [], db, [.selectComentarios]⟩
  | .ok rows => ⟨.comentarios rows, db, [.selectComentarios]⟩

/-- Handler of `POST /api/comentario-sobre-mi`. -/
def postComentarioSobreMi (db : Db) (body : ComentarioSobreMiBody) (now : String) : Reply :=
  if notInt body.usuario_id || notStr body.comentario then ⟨.failure, db, []⟩
  else
    match db.insertComentarioSobreMi (body.usuario_id.getD 0) (body.comentario.getD "") now with
    | .error _ => ⟨.failure, db, [.insertComentarioSobreMi]⟩
    | .ok (lastID, db') => ⟨.ok lastID, db', [.insertComentarioSobreMi]⟩

/-- Handler of `GET /api/comentarios-sobre-mi`. -/
def getComentariosSobreMi (db : Db) : Reply :=
  match db.allComentariosSobreMi with
  | .error _ => ⟨.comentarios [], db, [.selectComentariosSobreMi]⟩
  | .ok rows => ⟨.comentarios rows, db, [.selectComentariosSobreMi]⟩

/-! ## `POST /api/registro` on an arbitrary body -/

/-- A JavaScript number: the finite value `m * 2 ^ e`, an infinity, or `NaN`.
The handlers compute nothing with a number; they only negate it with `!`. -/
inductive JsNumber
  | finite (m e : Int)
  | infinite
  | nan
deriving DecidableEq, Repr

/-- A value a field of `req.body` can hold once `bodyParser.json()` has parsed
the body; `undefined` is a field the body does not have, `object` is any
object or array. -/
inductive JsVal
  | undefined
  | null
  | bool (b : Bool)
  | num (x : JsNumber)
  | str (s : String)
  | object
deriving DecidableEq, Repr

/-- JavaScript `!x`: the falsy values are `undefined`, `null`, `false`, `0`,
`NaN` and `""`; every other value, objects and arrays included, is truthy. -/
def JsVal.falsy : JsVal → Bool
  | .undefined => true
  | .null => true
  | .bool b => !b
  | .num (.finite m _) => decide (m = 0)
  | .num .infinite => false
  | .num .nan => true
  | .str s => decide (s = "")
  | .object => false

/-- Body of `POST /api/registro` as parsed JSON. -/
structure RegistroJson where
  nombre : JsVal
  email : JsVal
  password : JsVal
deriving DecidableEq, Repr

/-- What a handler throws.  `bcryptjs` throws `Error("Illegal arguments: ...")`
from `hashSync(s, 10)` when `typeof s !== 'string'`; Express turns the
exception into an HTTP 500 answer, and the store is not touched. -/
inductive Thrown
  | illegalArguments
deriving DecidableEq, Repr

/-- Handler of `POST /api/registro` on an arbitrary parsed body.  `bindText` is
the text the driver and a `TEXT` column make of a bound value (the identity on
strings); `.error` is an exception thrown out of the handler. -/
def postRegistroJson (B : Bcrypt) (bindText : JsVal → String) (db : Db) (body : RegistroJson)
    (salt : Nat) : Except Thrown Reply :=
  if body.nombre.falsy || body.email.falsy || body.password.falsy then
    .ok ⟨.fail "Faltan datos", db, []⟩
  else
    match body.password with
    | .str password =>
      let hash := B.hashSync password 10 salt
      match db.insertMiembro (bindText body.nombre) (bindText body.email) hash with
      | .error err =>
        if includes err.message "UNIQUE" then
          .ok ⟨.fail "Ese correo ya está registrado", db, [.insertMiembro]⟩
        else .ok ⟨.fail "Error base datos", db, [.insertMiembro]⟩
      | .ok (lastID, db') => .ok ⟨.ok lastID, db', [.insertMiembro]⟩
    | _ => .error .illegalArguments

/-- A text field of the body as a JavaScript value. -/
def JsVal.ofText : Option String → JsVal
  | none => .undefined
  | some s => .str s

/-- A body of text fields as parsed JSON. -/
def RegistroBody.toJson (body : RegistroBody) : RegistroJson :=
  ⟨JsVal.ofText body.nombre, JsVal.ofText body.email, JsVal.ofText body.password⟩

/-- The field is absent (`undefined` or `null`) or the empty string. -/
def JsVal.AbsentOrEmpty (v : JsVal) : Prop :=
  v = .undefined ∨ v = .null ∨ v = .str ""

/-- The field is one of the falsy values of JavaScript, listed one by one. -/
def JsVal.Falsy (v : JsVal) : Prop :=
  v = .undefined ∨ v = .null ∨ v = .str "" ∨ v = .bool false ∨ v = .num .nan ∨
    ∃ e, v = .num (.finite 0 e)

/-- A stand-in for the driver's conversion to evaluate the handler with. -/
def toyBindText : JsVal → String
  | .str s => s
  | .bool true => "1"
  | .bool false => "0"
  | _ => "[object Object]"

/-! ## Requests and runs -/

/-- A request to one of the nine routes, with the salt or clock value the
handler will draw while serving it. -/
inductive Request
  | registro (body : RegistroBody) (salt : Nat)
  | login (body : LoginBody)
  | buscarUsuario (nombre : String)
  | publicar (body : PublicarBody) (now : String)
  | publicaciones
  | comentar (body : ComentarBody) (now : String)
  | comentarios (publicacionID : Int)
  | comentarioSobreMi (body : ComentarioSobreMiBody) (now : String)
  | comentariosSobreMi
deriving DecidableEq, Repr

/-- Route dispatch. -/
def handle (B : Bcrypt) (db : Db) : Request → Reply
  | .registro body salt => postRegistro B db body salt
  | .login body => postLogin B db body
  | .buscarUsuario nombre => getBuscarUsuario db nombre
  | .publicar body now => postPublicar db body now
  | .publicaciones => getPublicaciones db
  | .comentar body now => postComentar db body now
  | .comentarios publicacionID => getComentarios db publicacionID
  | .comentarioSobreMi body now => postComentarioSobreMi db body now
  | .comentariosSobreMi => getComentariosSobreMi db

/-- The table a route inserts into, if it inserts. -/
def Request.table : Request → Option Table
  | .registro _ _ => some .miembros
  | .publicar _ _ => some .publicaciones
  | .comentar _ _ => some .comentarios
  | .comentarioSobreMi _ _ => some .comentarios_sobre_mi
  | _ => none

/-- The database after serving a sequence of requests one after the other. -/
def run (B : Bcrypt) (db : Db) : List Request → Db
  | [] => db
  | r :: rs => run B (handle B db r).db rs

/-- The ids handed out in table `t` while serving a sequence of requests, in
the order they were handed out. -/
def assigned (B : Bcrypt) (t : Table) (db : Db) : List Request → List Int
  | [] => []
  | r :: rs =>
    match (handle B db r).res with
    | .ok id =>
      if r.table = some t then id :: assigned B t (handle B db r).db rs
      else assigned B t (handle B db r).db rs
    | _ => assigned B t (handle B db r).db rs

/-- A database the program can produce from a fresh file. -/
def Reachable (B : Bcrypt) (db : Db) : Prop := ∃ rs, run B Db.empty rs = db

/-! ## Store invariant -/

/-- What holds of every database the program works on: the key constraints of
the schema (rowids strictly ascending in storage order, hence distinct;
`email` unique) and the fact that `POST /api/registro` never stores an empty
email. -/
structure Db.Inv (db : Db) : Prop where
  miembros_id : db.miembros.Pairwise (fun a b => a.id < b.id)
  miembros_email : db.miembros.Pairwise (fun a b => a.email ≠ b.email)
  miembros_email_ne : ∀ m ∈ db.miembros, m.email ≠ ""
  publicaciones_id : db.publicaciones.Pairwise (fun a b => a.id < b.id)
  comentarios_id : db.comentarios.Pairwise (fun a b => a.id < b.id)
  comentarios_sobre_mi_id : db.comentarios_sobre_mi.Pairwise (fun a b => a.id < b.id)

/-- Referential integrity: every `usuario_id` and every `publicacion_id` is the
id of a stored row. -/
def Db.RefInt (db : Db) : Prop :=
  (∀ p ∈ db.publicaciones, ∃ m ∈ db.miembros, m.id = p.usuario_id) ∧
  (∀ c ∈ db.comentarios, (∃ m ∈ db.miembros, m.id = c.usuario_id) ∧
    ∃ p ∈ db.publicaciones, p.id = c.publicacion_id) ∧
  (∀ c ∈ db.comentarios_sobre_mi, ∃ m ∈ db.miembros, m.id = c.usuario_id)

/-- A stand-in for `bcryptjs` to evaluate the handlers with: the digest is the
salt followed by the plaintext, and comparison strips the salt again. -/
def toyBcrypt : Bcrypt where
  hashSync := fun s _ salt => String.mk (Char.ofNat (48 + salt % 10) :: s.toList)
  compareSync := fun s h => decide (h.toList.tail = s.toList)

/-- The id `i` lies above everything table `t` holds or has held. -/
def Above (db : Db) (t : Table) (i : Int) : Prop :=
  db.seq t < i ∧ ∀ j ∈ db.ids t, j < i

instance : IsTotal ComentarioRow ComentarioRow.desc :=
  ⟨fun a b => le_total b.id a.id⟩

instance : IsTrans ComentarioRow ComentarioRow.desc :=
  ⟨fun _ _ _ hab hbc => le_trans hbc hab⟩

instance : IsTotal PublicacionRow PublicacionRow.desc :=
  ⟨fun a b => le_total b.id a.id⟩

instance : IsTrans PublicacionRow PublicacionRow.desc :=
  ⟨fun _ _ _ hab hbc => le_trans hbc hab⟩

instance (db : Db) : Decidable db.RefInt := by
  unfold Db.RefInt
  exact inferInstance

/-! # Theorems -/

/-! ## Lemmas on the JavaScript side -/

theorem includes_unique : includes SqliteError.uniqueFailed.message "UNIQUE" = true := by
  decide

theorem includes_foreignKey : includes SqliteError.foreignKeyFailed.message "UNIQUE" = false := by
  decide

theorem notStr_eq_true (x : Option String) : notStr x = true ↔ x = none ∨ x = some "" := by
  cases x <;> simp [notStr]

theorem notStr_some (s : String) : notStr (some s) = decide (s = "") := rfl

theorem notInt_some (n : Int) : notInt (some n) = decide (n = 0) := rfl

/-! ## Lemmas on the engine -/

theorem insertMiembro_dup (db : Db) (nombre email password : String)
    (h : ∃ m ∈ db.miembros, m.email = email) :
    db.insertMiembro nombre email password = .error .uniqueFailed := by
  unfold Db.insertMiembro
  rw [if_pos h]

theorem insertMiembro_fresh (db : Db) (nombre email password : String)
    (h : ∀ m ∈ db.miembros, m.email ≠ email) :
    db.insertMiembro nombre email password =
      .ok (newRowid (db.miembros.map (·.id)) db.seq_miembros,
        { db with
          miembros := db.miembros ++
            [⟨newRowid (db.miembros.map (·.id)) db.seq_miembros, nombre, email, password⟩],
          seq_miembros := newRowid (db.miembros.map (·.id)) db.seq_miembros }) := by
  unfold Db.insertMiembro
  rw [if_neg]
  rintro ⟨m, hm, hme⟩
  exact h m hm hme

theorem find_email_append_fresh (ms : List Miembro) (x : Miembro)
    (h : ∀ m ∈ ms, m.email ≠ x.email) :
    (ms ++ [x]).find? (fun m => decide (m.email = x.email)) = some x := by
  induction ms with
  | nil => simp
  | cons a l ih =>
    have ha : a.email ≠ x.email := h a (List.mem_cons_self _ _)
    simp only [List.cons_append, List.find?_cons, ha, decide_False]
    exact ih (fun m hm => h m (List.mem_cons_of_mem _ hm))

/-- The answer of `POST /api/registro` on a body with three non-empty fields
and an email that is already stored. -/
theorem postRegistro_dup (B : Bcrypt) (db : Db) (nombre email password : String) (salt : Nat)
    (hn : nombre ≠ "") (he : email ≠ "") (hp : password ≠ "")
    (h : ∃ m ∈ db.miembros, m.email = email) :
    postRegistro B db ⟨some nombre, some email, some password⟩ salt =
      ⟨.fail "Ese correo ya está registrado", db, [.insertMiembro]⟩ := by
  simp only [postRegistro, notStr_some, hn, he, hp, decide_False, Bool.or_self,
    Option.getD_some, insertMiembro_dup db _ _ _ h, includes_unique]
  rfl

/-- The answer of `POST /api/registro` on a body with three non-empty fields
and an email that is not stored yet. -/
theorem postRegistro_fresh (B : Bcrypt) (db : Db) (nombre email password : String) (salt : Nat)
    (hn : nombre ≠ "") (he : email ≠ "") (hp : password ≠ "")
    (h : ∀ m ∈ db.miembros, m.email ≠ email) :
    postRegistro B db ⟨some nombre, some email, some password⟩ salt =
      ⟨.ok (newRowid (db.miembros.map (·.id)) db.seq_miembros),
        { db with
          miembros := db.miembros ++
            [⟨newRowid (db.miembros.map (·.id)) db.seq_miembros, nombre, email,
              B.hashSync password 10 salt⟩],
          seq_miembros := newRowid (db.miembros.map (·.id)) db.seq_miembros },
        [.insertMiembro]⟩ := by
  simp only [postRegistro, notStr_some, hn, he, hp, decide_False, Bool.or_self,
    Option.getD_some, insertMiembro_fresh db _ _ _ h]
  rfl

/-- C1: on any store, registering a non-empty name, email and password whose
email is not stored yet succeeds with some id, and, provided `compareSync`
accepts the password against the digest `hashSync` made of it, a login with
the same email and password on the resulting store succeeds with that same id
and the registered name. -/
theorem register_then_login (B : Bcrypt) (db : Db) (nombre email password : String)
    (salt : Nat) (hn : nombre ≠ "") (he : email ≠ "") (hp : password ≠ "")
    (hfresh : ∀ m ∈ db.miembros, m.email ≠ email)
    (hverify : B.compareSync password (B.hashSync password 10 salt) = true) :
    ∃ i, (postRegistro B db ⟨some nombre, some email, some password⟩ salt).res = .ok i ∧
      (postLogin B (postRegistro B db ⟨some nombre, some email, some password⟩ salt).db
        ⟨some email, some password⟩).res = .okLogin i nombre := by
  refine ⟨newRowid (db.miembros.map (·.id)) db.seq_miembros, ?_, ?_⟩
  · rw [postRegistro_fresh B db nombre email password salt hn he hp hfresh]
  · rw [postRegistro_fresh B db nombre email password salt hn he hp hfresh]
    have hfind := find_email_append_fresh db.miembros
      ⟨newRowid (db.miembros.map (·.id)) db.seq_miembros, nombre, email,
        B.hashSync password 10 salt⟩ hfresh
    simp only [postLogin, notStr_some, he, hp, decide_False, Bool.or_self,
      Option.getD_some, Db.getMiembroByEmail] at hfind ⊢
    rw [hfind]
    simp [hverify]

/-- Witness for C1: Ana registers on the fresh database and logs in. -/
theorem register_then_login_witness :
    ∃ i, (postRegistro toyBcrypt Db.empty ⟨some "Ana", some "ana@x.com", some "pw1"⟩ 3).res
        = .ok i ∧
      (postLogin toyBcrypt
        (postRegistro toyBcrypt Db.empty ⟨some "Ana", some "ana@x.com", some "pw1"⟩ 3).db
        ⟨some "ana@x.com", some "pw1"⟩).res = .okLogin i "Ana" :=
  register_then_login toyBcrypt Db.empty "Ana" "ana@x.com" "pw1" 3 (by decide) (by decide)
    (by decide) (by decide) (by decide)

/-- C2: on any store that already holds a member with email `email`,
registering non-empty fields with that email is answered with the
duplicate-email message (not the generic store failure), and the store,
in particular the members table and the earlier member's row, is left as it
was. -/
theorem register_duplicate_email (B : Bcrypt) (db : Db) (nombre email password : String)
    (salt : Nat) (m : Miembro) (hn : nombre ≠ "") (he : email ≠ "") (hp : password ≠ "")
    (hm : m ∈ db.miembros) (hme : m.email = email) :
    (postRegistro B db ⟨some nombre, some email, some password⟩ salt).res
        = .fail "Ese correo ya está registrado" ∧
      (postRegistro B db ⟨some nombre, some email, some password⟩ salt).res
        ≠ .fail "Error base datos" ∧
      (postRegistro B db ⟨some nombre, some email, some password⟩ salt).db = db ∧
      (postRegistro B db ⟨some nombre, some email, some password⟩ salt).db.miembros
        = db.miembros ∧
      m ∈ (postRegistro B db ⟨some nombre, some email, some password⟩ salt).db.miembros := by
  rw [postRegistro_dup B db nombre email password salt hn he hp ⟨m, hm, hme⟩]
  refine ⟨rfl, ?_, rfl, rfl, hm⟩
  intro h
  injection h with h
  exact absurd h (by decide)

/-- Witness for C2: a second registration of Ana's email on the store that
holds Ana. -/
theorem register_duplicate_email_witness :
    (postRegistro toyBcrypt ⟨[⟨1, "Ana", "ana@x.com", "3pw1"⟩], [], [], [], 1, 0, 0, 0⟩
        ⟨some "Ana", some "ana@x.com", some "pw2"⟩ 5).res
        = .fail "Ese correo ya está registrado" ∧
      (postRegistro toyBcrypt ⟨[⟨1, "Ana", "ana@x.com", "3pw1"⟩], [], [], [], 1, 0, 0, 0⟩
        ⟨some "Ana", some "ana@x.com", some "pw2"⟩ 5).res
        ≠ .fail "Error base datos" ∧
      (postRegistro toyBcrypt ⟨[⟨1, "Ana", "ana@x.com", "3pw1"⟩], [], [], [], 1, 0, 0, 0⟩
        ⟨some "Ana", some "ana@x.com", some "pw2"⟩ 5).db
        = ⟨[⟨1, "Ana", "ana@x.com", "3pw1"⟩], [], [], [], 1, 0, 0, 0⟩ ∧
      (postRegistro toyBcrypt ⟨[⟨1, "Ana", "ana@x.com", "3pw1"⟩], [], [], [], 1, 0, 0, 0⟩
        ⟨some "Ana", some "ana@x.com", some "pw2"⟩ 5).db.miembros
        = [⟨1, "Ana", "ana@x.com", "3pw1"⟩] ∧
      (⟨1, "Ana", "ana@x.com", "3pw1"⟩ : Miembro) ∈
        (postRegistro toyBcrypt ⟨[⟨1, "Ana", "ana@x.com", "3pw1"⟩], [], [], [], 1, 0, 0, 0⟩
          ⟨some "Ana", some "ana@x.com", some "pw2"⟩ 5).db.miembros :=
  register_duplicate_email toyBcrypt ⟨[⟨1, "Ana", "ana@x.com", "3pw1"⟩], [], [], [], 1, 0, 0, 0⟩
    "Ana" "ana@x.com" "pw2" 5 ⟨1, "Ana", "ana@x.com", "3pw1"⟩ (by decide) (by decide)
    (by decide) (by decide) (by decide)

theorem find_email_of_mem (ms : List Miembro) (m : Miembro)
    (hu : ms.Pairwise (fun a b => a.email ≠ b.email)) (hm : m ∈ ms) :
    ms.find? (fun x => decide (x.email = m.email)) = some m := by
  induction ms with
  | nil => cases hm
  | cons a l ih =>
    rw [List.pairwise_cons] at hu
    rcases List.mem_cons.mp hm with rfl | hl
    · simp
    · have ha : a.email ≠ m.email := hu.1 m hl
      simp only [List.find?_cons, ha, decide_False]
      exact ih hu.2 hl

/-- On a body of text fields `POST /api/registro` answers "Faltan datos"
exactly when one of `nombre`, `email`, `password` is absent or empty; in that
case the store is left as it was and no statement is sent to the engine. -/
theorem postRegistro_text_validation (B : Bcrypt) (db : Db) (body : RegistroBody) (salt : Nat) :
    ((postRegistro B db body salt).res = .fail "Faltan datos" ↔
      ((body.nombre = none ∨ body.nombre = some "") ∨
       (body.email = none ∨ body.email = some "") ∨
       (body.password = none ∨ body.password = some ""))) ∧
    (((body.nombre = none ∨ body.nombre = some "") ∨
       (body.email = none ∨ body.email = some "") ∨
       (body.password = none ∨ body.password = some "")) →
      (postRegistro B db body salt).db = db ∧ (postRegistro B db body salt).issued = []) := by
  simp only [← notStr_eq_true]
  by_cases hv : (notStr body.nombre || notStr body.email || notStr body.password) = true
  · have hv' := hv
    simp only [Bool.or_eq_true, or_assoc] at hv'
    simp only [postRegistro, hv, if_true, hv', true_iff, and_self, forall_true_left, true_and]
  · have hv' := hv
    simp only [Bool.or_eq_true, or_assoc] at hv'
    simp only [hv', false_iff, false_imp_iff, and_true]
    rw [postRegistro, if_neg hv, iff_false]
    simp only []
    generalize db.insertMiembro (body.nombre.getD "") (body.email.getD "")
        (B.hashSync (body.password.getD "") 10 salt) = r
    cases r with
    | error err =>
      cases err
      · simp only [includes_unique, if_true]
        intro h
        injection h with h
        exact absurd h (by decide)
      · simp only [includes_foreignKey, Bool.false_eq_true, if_false]
        intro h
        injection h with h
        exact absurd h (by decide)
    | ok p =>
      intro h
      cases h

theorem falsy_iff (v : JsVal) : v.falsy = true ↔ v.Falsy := by
  unfold JsVal.Falsy
  cases v with
  | undefined => simp [JsVal.falsy]
  | null => simp [JsVal.falsy]
  | bool b => cases b <;> simp [JsVal.falsy]
  | num x =>
    cases x with
    | finite m e =>
      simp only [JsVal.falsy, decide_eq_true_eq]
      constructor
      · intro hm
        subst hm
        exact Or.inr (Or.inr (Or.inr (Or.inr (Or.inr ⟨e, rfl⟩))))
      · rintro (h | h | h | h | h | ⟨e', h⟩)
        · cases h
        · cases h
        · cases h
        · cases h
        · cases h
        · injection h with h
          injection h with h1 h2
    | infinite => simp [JsVal.falsy]
    | nan => simp [JsVal.falsy]
  | str s => simp [JsVal.falsy]
  | object => simp [JsVal.falsy]

/-- On text fields the handler on parsed JSON is the handler on text fields. -/
theorem postRegistroJson_toJson (B : Bcrypt) (bindText : JsVal → String) (db : Db)
    (body : RegistroBody) (salt : Nat) (hbind : ∀ s, bindText (.str s) = s) :
    postRegistroJson B bindText db body.toJson salt = .ok (postRegistro B db body salt) := by
  obtain ⟨n, e, p⟩ := body
  cases n with
  | none => simp [postRegistroJson, postRegistro, RegistroBody.toJson, JsVal.ofText,
      JsVal.falsy, notStr]
  | some n =>
  cases e with
  | none => simp [postRegistroJson, postRegistro, RegistroBody.toJson, JsVal.ofText,
      JsVal.falsy, notStr]
  | some e =>
  cases p with
  | none => simp [postRegistroJson, postRegistro, RegistroBody.toJson, JsVal.ofText,
      JsVal.falsy, notStr]
  | some p =>
    simp only [postRegistroJson, postRegistro, RegistroBody.toJson, JsVal.ofText,
      JsVal.falsy, notStr, hbind, Option.getD_some]
    split
    · rfl
    · generalize db.insertMiembro n e (B.hashSync p 10 salt) = r
      cases r with
      | error err => cases err <;> simp [includes_unique, includes_foreignKey]
      | ok q => rfl

/-- A truthy password that is not a string makes `hashSync` throw: the handler
answers nothing of its own and no statement is sent. -/
theorem postRegistroJson_throws :
    postRegistroJson toyBcrypt toyBindText Db.empty
      ⟨.str "Ana", .str "ana@x.com", .num (.finite 123 0)⟩ 3 = .error .illegalArguments := by
  rfl

/-- C7, as amended: on any store and any parsed body, `POST /api/registro`
answers "Faltan datos" exactly when one of `nombre`, `email`, `password` is
falsy in JavaScript (absent, `null`, `""`, `false`, `0` or `NaN`); in that
case the store is left as it was and no statement is sent to the engine; when
all three are truthy the outcome is never "Faltan datos". -/
theorem registro_validation_falsy (B : Bcrypt) (bindText : JsVal → String) (db : Db)
    (body : RegistroJson) (salt : Nat) :
    ((∃ r, postRegistroJson B bindText db body salt = .ok r ∧ r.res = .fail "Faltan datos") ↔
      (body.nombre.Falsy ∨ body.email.Falsy ∨ body.password.Falsy)) ∧
    ((body.nombre.Falsy ∨ body.email.Falsy ∨ body.password.Falsy) →
      postRegistroJson B bindText db body salt = .ok ⟨.fail "Faltan datos", db, []⟩) := by
  simp only [← falsy_iff]
  by_cases hv : (body.nombre.falsy || body.email.falsy || body.password.falsy) = true
  · have hv' := hv
    simp only [Bool.or_eq_true, or_assoc] at hv'
    have hpost : postRegistroJson B bindText db body salt = .ok ⟨.fail "Faltan datos", db, []⟩ := by
      rw [postRegistroJson, if_pos hv]
    exact ⟨⟨fun _ => hv', fun _ => ⟨_, hpost, rfl⟩⟩, fun _ => hpost⟩
  · have hv' := hv
    simp only [Bool.or_eq_true, or_assoc] at hv'
    refine ⟨⟨?_, fun h => absurd h hv'⟩, fun h => absurd h hv'⟩
    rintro ⟨r, hr, hres⟩
    exfalso
    rw [postRegistroJson, if_neg hv] at hr
    split at hr
    · simp only [] at hr
      generalize db.insertMiembro (bindText body.nombre) (bindText body.email) _ = q at hr
      cases q with
      | error err =>
        cases err
        · simp only [includes_unique, if_true] at hr
          injection hr with hr
          subst hr
          injection hres with hres
          exact absurd hres (by decide)
        · simp only [includes_foreignKey, Bool.false_eq_true, if_false] at hr
          injection hr with hr
          subst hr
          injection hres with hres
          exact absurd hres (by decide)
      | ok q =>
        injection hr with hr
        subst hr
        cases hres
    · cases hr

/-- Witness for C7 as amended: a body whose `password` is the number 0, on the
fresh database. -/
theorem registro_validation_falsy_witness :
    postRegistroJson toyBcrypt toyBindText Db.empty
      ⟨.str "Zero", .str "z@x", .num (.finite 0 0)⟩ 3
      = .ok ⟨.fail "Faltan datos", Db.empty, []⟩ :=
  (registro_validation_falsy toyBcrypt toyBindText Db.empty
    ⟨.str "Zero", .str "z@x", .num (.finite 0 0)⟩ 3).2
    (Or.inr (Or.inr (Or.inr (Or.inr (Or.inr (Or.inr (Or.inr ⟨0, rfl⟩)))))))

/-- C7 as first stated fails: on the fresh database the body
`{nombre: "Zero", email: "z@x", password: 0}` has all three fields present and
none empty, and the answer is "Faltan datos" all the same. -/
theorem registro_validation_counterexample :
    ¬ ((∃ r, postRegistroJson toyBcrypt toyBindText Db.empty
          ⟨.str "Zero", .str "z@x", .num (.finite 0 0)⟩ 3 = .ok r ∧
          r.res = .fail "Faltan datos") ↔
        ((JsVal.str "Zero").AbsentOrEmpty ∨ (JsVal.str "z@x").AbsentOrEmpty ∨
          (JsVal.num (.finite 0 0)).AbsentOrEmpty)) := by
  intro h
  have hleft : ∃ r, postRegistroJson toyBcrypt toyBindText Db.empty
      ⟨.str "Zero", .str "z@x", .num (.finite 0 0)⟩ 3 = .ok r ∧
      r.res = .fail "Faltan datos" := ⟨⟨.fail "Faltan datos", Db.empty, []⟩, rfl, rfl⟩
  rcases h.mp hleft with h1 | h1 | h1
  · rcases h1 with h2 | h2 | h2
    · cases h2
    · cases h2
    · injection h2 with h2
      exact absurd h2 (by decide)
  · rcases h1 with h2 | h2 | h2
    · cases h2
    · cases h2
    · injection h2 with h2
      exact absurd h2 (by decide)
  · rcases h1 with h2 | h2 | h2 <;> cases h2

/-- C3: on a store satisfying the invariant, a login with the email of a stored
member and a non-empty password that `compareSync` rejects against that
member's digest is answered "Contraseña incorrecta", not "Usuario no
encontrado"; and on any store "Usuario no encontrado" is answered only when no
member has the email of the request. -/
theorem login_wrong_password (B : Bcrypt) (db : Db) :
    (∀ (m : Miembro) (email password : String), db.Inv → m ∈ db.miembros →
      m.email = email → password ≠ "" → B.compareSync password m.password = false →
      (postLogin B db ⟨some email, some password⟩).res = .fail "Contraseña incorrecta" ∧
      (postLogin B db ⟨some email, some password⟩).res ≠ .fail "Usuario no encontrado") ∧
    (∀ body : LoginBody, (postLogin B db body).res = .fail "Usuario no encontrado" →
      ∃ email, body.email = some email ∧ ∀ m ∈ db.miembros, m.email ≠ email) := by
  constructor
  · intro m email password hinv hm hme hp hcmp
    subst hme
    have he : m.email ≠ "" := hinv.miembros_email_ne m hm
    have hfind := find_email_of_mem db.miembros m hinv.miembros_email hm
    have hres : (postLogin B db ⟨some m.email, some password⟩).res
        = .fail "Contraseña incorrecta" := by
      simp only [postLogin, notStr_some, he, hp, decide_False, Bool.or_self,
        Option.getD_some, Db.getMiembroByEmail]
      rw [hfind]
      simp [hcmp]
    refine ⟨hres, ?_⟩
    rw [hres]
    intro h
    injection h with h
    exact absurd h (by decide)
  · intro body h
    by_cases hv : (notStr body.email || notStr body.password) = true
    · simp only [postLogin, hv, if_true] at h
      injection h with h
      exact absurd h (by decide)
    · have hemail : ∃ email, body.email = some email := by
        cases hb : body.email with
        | none => simp [hb, notStr] at hv
        | some e => exact ⟨e, rfl⟩
      obtain ⟨email, hemail⟩ := hemail
      refine ⟨email, hemail, ?_⟩
      rw [postLogin, if_neg hv] at h
      simp only [Db.getMiembroByEmail, hemail, Option.getD_some] at h
      cases hf : db.miembros.find? (fun m => decide (m.email = email)) with
      | none =>
        intro m hm hme
        have := List.find?_eq_none.mp hf m hm
        simp [hme] at this
      | some row =>
        rw [hf] at h
        by_cases hc : B.compareSync (body.password.getD "") row.password = true
        · simp only [hc, Bool.not_true, Bool.false_eq_true, if_false] at h
          cases h
        · simp only [hc, Bool.not_false, if_true] at h
          injection h with h
          exact absurd h (by decide)

/-- Witness for C3: Ana logs in with a wrong password, and Bea, who is not
registered, is not found. -/
theorem login_wrong_password_witness :
    ((postLogin toyBcrypt ⟨[⟨1, "Ana", "ana@x.com", "3pw1"⟩], [], [], [], 1, 0, 0, 0⟩
        ⟨some "ana@x.com", some "pw2"⟩).res = .fail "Contraseña incorrecta" ∧
      (postLogin toyBcrypt ⟨[⟨1, "Ana", "ana@x.com", "3pw1"⟩], [], [], [], 1, 0, 0, 0⟩
        ⟨some "ana@x.com", some "pw2"⟩).res ≠ .fail "Usuario no encontrado") ∧
    ∃ email, (⟨some "bea@x.com", some "pw"⟩ : LoginBody).email = some email ∧
      ∀ m ∈ (⟨[⟨1, "Ana", "ana@x.com", "3pw1"⟩], [], [], [], 1, 0, 0, 0⟩ : Db).miembros,
        m.email ≠ email :=
  ⟨(login_wrong_password toyBcrypt ⟨[⟨1, "Ana", "ana@x.com", "3pw1"⟩], [], [], [], 1, 0, 0, 0⟩).1
      ⟨1, "Ana", "ana@x.com", "3pw1"⟩ "ana@x.com" "pw2"
      ⟨by decide, by decide, by decide, by decide, by decide, by decide⟩
      (by decide) (by decide) (by decide) (by decide),
    (login_wrong_password toyBcrypt ⟨[⟨1, "Ana", "ana@x.com", "3pw1"⟩], [], [], [], 1, 0, 0, 0⟩).2
      ⟨some "bea@x.com", some "pw"⟩ (by decide)⟩

/-- C9: `GET /api/buscar-usuario/:nombre` answers `{exists: true, id, nombre}`
exactly when some member's name equals the parameter; the answered `nombre` is
then the parameter and the answered `id` is the id of a member with that name;
otherwise the answer is `{exists: false}`, and it is never a
`{success: false}` envelope. -/
theorem buscar_usuario_spec (db : Db) (n : String) :
    ((∃ i nm, (getBuscarUsuario db n).res = .existe i nm) ↔ ∃ m ∈ db.miembros, m.nombre = n) ∧
    (∀ i nm, (getBuscarUsuario db n).res = .existe i nm →
      nm = n ∧ ∃ m ∈ db.miembros, m.id = i ∧ m.nombre = n) ∧
    ((¬ ∃ m ∈ db.miembros, m.nombre = n) → (getBuscarUsuario db n).res = .notExists) ∧
    (∀ msg, (getBuscarUsuario db n).res ≠ .fail msg) ∧
    (getBuscarUsuario db n).res ≠ .failure := by
  simp only [getBuscarUsuario, Db.getMiembroByNombre]
  cases hf : db.miembros.find? (fun m => decide (m.nombre = n)) with
  | none =>
    have hnone : ¬ ∃ m ∈ db.miembros, m.nombre = n := by
      rintro ⟨m, hm, hmn⟩
      have := List.find?_eq_none.mp hf m hm
      simp [hmn] at this
    simp [hnone]
  | some row =>
    have hmem : row ∈ db.miembros := List.mem_of_find?_eq_some hf
    have hname : row.nombre = n := by
      have := List.find?_some hf
      simpa using this
    have hex : ∃ m ∈ db.miembros, m.nombre = n := ⟨row, hmem, hname⟩
    simp only [Option.map_some', hex, iff_true, not_true_eq_false, false_imp_iff, true_and]
    refine ⟨⟨row.id, row.nombre, rfl⟩, ?_, ?_, ?_⟩
    · intro i nm h
      injection h with hi hnm
      subst hi hnm
      exact ⟨hname, row, hmem, rfl, hname⟩
    · intro msg h
      cases h
    · intro h
      cases h

/-- Witness for C9: looking up "Ana" on a store that holds her, and reading the
answer back. -/
theorem buscar_usuario_spec_witness :
    ("Ana" = "Ana" ∧ ∃ m ∈ (⟨[⟨1, "Ana", "ana@x.com", "3pw1"⟩], [], [], [], 1, 0, 0, 0⟩ : Db).miembros,
      m.id = 1 ∧ m.nombre = "Ana") ∧
    (getBuscarUsuario ⟨[⟨1, "Ana", "ana@x.com", "3pw1"⟩], [], [], [], 1, 0, 0, 0⟩ "ana").res
      = .notExists :=
  ⟨(buscar_usuario_spec ⟨[⟨1, "Ana", "ana@x.com", "3pw1"⟩], [], [], [], 1, 0, 0, 0⟩ "Ana").2.1
      1 "Ana" (by decide),
    (buscar_usuario_spec ⟨[⟨1, "Ana", "ana@x.com", "3pw1"⟩], [], [], [], 1, 0, 0, 0⟩ "ana").2.2.1
      (by decide)⟩

/-! ## Rowids -/

theorem foldr_rowid_ge_one (ids : List Int) :
    1 ≤ ids.foldr (fun i acc => max (i + 1) acc) 1 := by
  induction ids with
  | nil => simp
  | cons a l ih => simp only [List.foldr_cons]; exact le_max_of_le_right ih

theorem lt_foldr_rowid (ids : List Int) (i : Int) (h : i ∈ ids) :
    i < ids.foldr (fun i acc => max (i + 1) acc) 1 := by
  induction ids with
  | nil => cases h
  | cons a l ih =>
    simp only [List.foldr_cons]
    rcases List.mem_cons.mp h with rfl | hl
    · exact lt_max_of_lt_left (by omega)
    · exact lt_max_of_lt_right (ih hl)

theorem lt_newRowid_of_mem (ids : List Int) (seq i : Int) (h : i ∈ ids) :
    i < newRowid ids seq :=
  lt_max_of_lt_left (lt_foldr_rowid ids i h)

theorem seq_lt_newRowid (ids : List Int) (seq : Int) : seq < newRowid ids seq :=
  lt_max_of_lt_right (by omega)

theorem pairwise_append_newRowid {α : Type} (f : α → Int) (l : List α) (x : α) (seq : Int)
    (hl : l.Pairwise (fun a b => f a < f b)) (hx : f x = newRowid (l.map f) seq) :
    (l ++ [x]).Pairwise (fun a b => f a < f b) := by
  rw [List.pairwise_append]
  refine ⟨hl, List.pairwise_singleton _ _, ?_⟩
  intro a ha b hb
  rw [List.mem_singleton] at hb
  subst hb
  rw [hx]
  exact lt_newRowid_of_mem _ _ _ (List.mem_map_of_mem f ha)

/-! ## The inserts, case by case -/

theorem insertPublicacion_eq (db : Db) (u : Int) (c now : String) :
    db.insertPublicacion u c now =
      .ok (newRowid (db.publicaciones.map (·.id)) db.seq_publicaciones,
        { db with
          publicaciones := db.publicaciones ++
            [⟨newRowid (db.publicaciones.map (·.id)) db.seq_publicaciones, u, c, now⟩],
          seq_publicaciones := newRowid (db.publicaciones.map (·.id)) db.seq_publicaciones }) := by
  simp [Db.insertPublicacion, foreign_keys]

theorem insertComentario_eq (db : Db) (u p : Int) (c now : String) :
    db.insertComentario u p c now =
      .ok (newRowid (db.comentarios.map (·.id)) db.seq_comentarios,
        { db with
          comentarios := db.comentarios ++
            [⟨newRowid (db.comentarios.map (·.id)) db.seq_comentarios, u, p, c, now⟩],
          seq_comentarios := newRowid (db.comentarios.map (·.id)) db.seq_comentarios }) := by
  simp [Db.insertComentario, foreign_keys]

theorem insertComentarioSobreMi_eq (db : Db) (u : Int) (c now : String) :
    db.insertComentarioSobreMi u c now =
      .ok (newRowid (db.comentarios_sobre_mi.map (·.id)) db.seq_comentarios_sobre_mi,
        { db with
          comentarios_sobre_mi := db.comentarios_sobre_mi ++
            [⟨newRowid (db.comentarios_sobre_mi.map (·.id)) db.seq_comentarios_sobre_mi,
              u, c, now⟩],
          seq_comentarios_sobre_mi :=
            newRowid (db.comentarios_sobre_mi.map (·.id)) db.seq_comentarios_sobre_mi }) := by
  simp [Db.insertComentarioSobreMi, foreign_keys]

/-- The three outcomes of `POST /api/registro`. -/
theorem postRegistro_cases (B : Bcrypt) (db : Db) (body : RegistroBody) (salt : Nat) :
    postRegistro B db body salt = ⟨.fail "Faltan datos", db, []⟩ ∨
    postRegistro B db body salt
      = ⟨.fail "Ese correo ya está registrado", db, [.insertMiembro]⟩ ∨
    ∃ n e p, n ≠ "" ∧ e ≠ "" ∧ p ≠ "" ∧ body = ⟨some n, some e, some p⟩ ∧
      (∀ m ∈ db.miembros, m.email ≠ e) ∧
      postRegistro B db body salt =
        ⟨.ok (newRowid (db.miembros.map (·.id)) db.seq_miembros),
          { db with
            miembros := db.miembros ++
              [⟨newRowid (db.miembros.map (·.id)) db.seq_miembros, n, e,
                B.hashSync p 10 salt⟩],
            seq_miembros := newRowid (db.miembros.map (·.id)) db.seq_miembros },
          [.insertMiembro]⟩ := by
  obtain ⟨n, e, p⟩ := body
  by_cases hv : (notStr n || notStr e || notStr p) = true
  · left
    rw [postRegistro, if_pos hv]
  · right
    cases n with
    | none => simp [notStr] at hv
    | some n =>
    cases e with
    | none => simp [notStr] at hv
    | some e =>
    cases p with
    | none => simp [notStr] at hv
    | some p =>
    simp only [notStr_some, Bool.or_eq_true, decide_eq_true_eq, not_or] at hv
    obtain ⟨⟨hn, he⟩, hp⟩ := hv
    by_cases hdup : ∃ m ∈ db.miembros, m.email = e
    · left
      exact postRegistro_dup B db n e p salt hn he hp hdup
    · right
      have hfresh : ∀ m ∈ db.miembros, m.email ≠ e := fun m hm hme => hdup ⟨m, hm, hme⟩
      exact ⟨n, e, p, hn, he, hp, rfl, hfresh,
        postRegistro_fresh B db n e p salt hn he hp hfresh⟩

/-- The two outcomes of `POST /api/publicar`. -/
theorem postPublicar_cases (db : Db) (body : PublicarBody) (now : String) :
    postPublicar db body now = ⟨.failure, db, []⟩ ∨
    ∃ u c, u ≠ 0 ∧ c ≠ "" ∧ body = ⟨some u, some c⟩ ∧
      postPublicar db body now =
        ⟨.ok (newRowid (db.publicaciones.map (·.id)) db.seq_publicaciones),
          { db with
            publicaciones := db.publicaciones ++
              [⟨newRowid (db.publicaciones.map (·.id)) db.seq_publicaciones, u, c, now⟩],
            seq_publicaciones :=
              newRowid (db.publicaciones.map (·.id)) db.seq_publicaciones },
          [.insertPublicacion]⟩ := by
  obtain ⟨u, c⟩ := body
  by_cases hv : (notInt u || notStr c) = true
  · left
    rw [postPublicar, if_pos hv]
  · right
    cases u with
    | none => simp [notInt] at hv
    | some u =>
    cases c with
    | none => simp [notStr] at hv
    | some c =>
    refine ⟨u, c, ?_, ?_, rfl, ?_⟩
    · simp only [notInt_some, notStr_some, Bool.or_eq_true, decide_eq_true_eq, not_or] at hv
      exact hv.1
    · simp only [notInt_some, notStr_some, Bool.or_eq_true, decide_eq_true_eq, not_or] at hv
      exact hv.2
    · rw [postPublicar, if_neg hv]
      simp only [Option.getD_some, insertPublicacion_eq]

/-- The two outcomes of `POST /api/comentar`. -/
theorem postComentar_cases (db : Db) (body : ComentarBody) (now : String) :
    postComentar db body now = ⟨.failure, db, []⟩ ∨
    ∃ u p c, u ≠ 0 ∧ p ≠ 0 ∧ c ≠ "" ∧ body = ⟨some u, some p, some c⟩ ∧
      postComentar db body now =
        ⟨.ok (newRowid (db.comentarios.map (·.id)) db.seq_comentarios),
          { db with
            comentarios := db.comentarios ++
              [⟨newRowid (db.comentarios.map (·.id)) db.seq_comentarios, u, p, c, now⟩],
            seq_comentarios := newRowid (db.comentarios.map (·.id)) db.seq_comentarios },
          [.insertComentario]⟩ := by
  obtain ⟨u, p, c⟩ := body
  by_cases hv : (notInt u || notInt p || notStr c) = true
  · left
    rw [postComentar, if_pos hv]
  · right
    cases u with
    | none => simp [notInt] at hv
    | some u =>
    cases p with
    | none => simp [notInt] at hv
    | some p =>
    cases c with
    | none => simp [notStr] at hv
    | some c =>
    refine ⟨u, p, c, ?_, ?_, ?_, rfl, ?_⟩
    · simp only [notInt_some, notStr_some, Bool.or_eq_true, decide_eq_true_eq, not_or] at hv
      exact hv.1.1
    · simp only [notInt_some, notStr_some, Bool.or_eq_true, decide_eq_true_eq, not_or] at hv
      exact hv.1.2
    · simp only [notInt_some, notStr_some, Bool.or_eq_true, decide_eq_true_eq, not_or] at hv
      exact hv.2
    · rw [postComentar, if_neg hv]
      simp only [Option.getD_some, insertComentario_eq]

/-- The two outcomes of `POST /api/comentario-sobre-mi`. -/
theorem postComentarioSobreMi_cases (db : Db) (body : ComentarioSobreMiBody) (now : String) :
    postComentarioSobreMi db body now = ⟨.failure, db, []⟩ ∨
    ∃ u c, u ≠ 0 ∧ c ≠ "" ∧ body = ⟨some u, some c⟩ ∧
      postComentarioSobreMi db body now =
        ⟨.ok (newRowid (db.comentarios_sobre_mi.map (·.id)) db.seq_comentarios_sobre_mi),
          { db with
            comentarios_sobre_mi := db.comentarios_sobre_mi ++
              [⟨newRowid (db.comentarios_sobre_mi.map (·.id)) db.seq_comentarios_sobre_mi,
                u, c, now⟩],
            seq_comentarios_sobre_mi :=
              newRowid (db.comentarios_sobre_mi.map (·.id)) db.seq_comentarios_sobre_mi },
          [.insertComentarioSobreMi]⟩ := by
  obtain ⟨u, c⟩ := body
  by_cases hv : (notInt u || notStr c) = true
  · left
    rw [postComentarioSobreMi, if_pos hv]
  · right
    cases u with
    | none => simp [notInt] at hv
    | some u =>
    cases c with
    | none => simp [notStr] at hv
    | some c =>
    refine ⟨u, c, ?_, ?_, rfl, ?_⟩
    · simp only [notInt_some, notStr_some, Bool.or_eq_true, decide_eq_true_eq, not_or] at hv
      exact hv.1
    · simp only [notInt_some, notStr_some, Bool.or_eq_true, decide_eq_true_eq, not_or] at hv
      exact hv.2
    · rw [postComentarioSobreMi, if_neg hv]
      simp only [Option.getD_some, insertComentarioSobreMi_eq]

/-! ## The reads leave the database alone -/

theorem postLogin_db (B : Bcrypt) (db : Db) (body : LoginBody) : (postLogin B db body).db = db := by
  unfold postLogin
  split
  · rfl
  · simp only [Db.getMiembroByEmail]
    split
    · rfl
    · rfl
    · split <;> rfl

theorem getBuscarUsuario_db (db : Db) (n : String) : (getBuscarUsuario db n).db = db := by
  unfold getBuscarUsuario
  split <;> rfl

theorem getPublicaciones_db (db : Db) : (getPublicaciones db).db = db := rfl

theorem getComentarios_db (db : Db) (x : Int) : (getComentarios db x).db = db := rfl

theorem getComentariosSobreMi_db (db : Db) : (getComentariosSobreMi db).db = db := rfl

theorem postLogin_res_ne_ok (B : Bcrypt) (db : Db) (body : LoginBody) (i : Int) :
    (postLogin B db body).res ≠ .ok i := by
  unfold postLogin
  split
  · intro h; cases h
  · simp only [Db.getMiembroByEmail]
    split
    · intro h; cases h
    · intro h; cases h
    · split <;> (intro h; cases h)

theorem getBuscarUsuario_res_ne_ok (db : Db) (n : String) (i : Int) :
    (getBuscarUsuario db n).res ≠ .ok i := by
  unfold getBuscarUsuario
  split <;> (intro h; cases h)

/-! ## One step of the server -/

/-- A request either leaves the database as it was and hands out no id, or it
is an insert into its table `t`: the id handed out is the table's next rowid,
the table gains that id at the end, its `sqlite_sequence` entry becomes that
id, and the other tables keep their ids and entries. -/
theorem handle_step (B : Bcrypt) (db : Db) (r : Request) :
    ((handle B db r).db = db ∧ ∀ i, (handle B db r).res ≠ .ok i) ∨
    ∃ t, r.table = some t ∧
      (handle B db r).res = .ok (newRowid (db.ids t) (db.seq t)) ∧
      (handle B db r).db.ids t = db.ids t ++ [newRowid (db.ids t) (db.seq t)] ∧
      (handle B db r).db.seq t = newRowid (db.ids t) (db.seq t) ∧
      ∀ t', t' ≠ t → (handle B db r).db.ids t' = db.ids t' ∧
        (handle B db r).db.seq t' = db.seq t' := by
  cases r with
  | registro body salt =>
    rcases postRegistro_cases B db body salt with h | h | ⟨n, e, p, -, -, -, -, -, h⟩
    · left
      simp only [handle]
      rw [h]
      exact ⟨rfl, fun i hi => by cases hi⟩
    · left
      simp only [handle]
      rw [h]
      exact ⟨rfl, fun i hi => by cases hi⟩
    · right
      refine ⟨.miembros, rfl, ?_⟩
      simp only [handle, h, Db.ids, Db.seq, List.map_append, List.map_cons, List.map_nil,
        true_and]
      intro t' ht'
      cases t' <;> simp_all [Db.ids, Db.seq]
  | login body =>
    left; exact ⟨postLogin_db B db body, postLogin_res_ne_ok B db body⟩
  | buscarUsuario nombre =>
    left; exact ⟨getBuscarUsuario_db db nombre, getBuscarUsuario_res_ne_ok db nombre⟩
  | publicar body now =>
    rcases postPublicar_cases db body now with h | ⟨u, c, -, -, -, h⟩
    · left
      simp only [handle]
      rw [h]
      exact ⟨rfl, fun i hi => by cases hi⟩
    · right
      refine ⟨.publicaciones, rfl, ?_⟩
      simp only [handle, h, Db.ids, Db.seq, List.map_append, List.map_cons, List.map_nil,
        true_and]
      intro t' ht'
      cases t' <;> simp_all [Db.ids, Db.seq]
  | publicaciones =>
    left; exact ⟨rfl, fun i hi => by cases hi⟩
  | comentar body now =>
    rcases postComentar_cases db body now with h | ⟨u, p, c, -, -, -, -, h⟩
    · left
      simp only [handle]
      rw [h]
      exact ⟨rfl, fun i hi => by cases hi⟩
    · right
      refine ⟨.comentarios, rfl, ?_⟩
      simp only [handle, h, Db.ids, Db.seq, List.map_append, List.map_cons, List.map_nil,
        true_and]
      intro t' ht'
      cases t' <;> simp_all [Db.ids, Db.seq]
  | comentarios x =>
    left; exact ⟨rfl, fun i hi => by cases hi⟩
  | comentarioSobreMi body now =>
    rcases postComentarioSobreMi_cases db body now with h | ⟨u, c, -, -, -, h⟩
    · left
      simp only [handle]
      rw [h]
      exact ⟨rfl, fun i hi => by cases hi⟩
    · right
      refine ⟨.comentarios_sobre_mi, rfl, ?_⟩
      simp only [handle, h, Db.ids, Db.seq, List.map_append, List.map_cons, List.map_nil,
        true_and]
      intro t' ht'
      cases t' <;> simp_all [Db.ids, Db.seq]
  | comentariosSobreMi =>
    left; exact ⟨rfl, fun i hi => by cases hi⟩

theorem above_of_step (B : Bcrypt) (db : Db) (r : Request) (t : Table) (i : Int)
    (h : Above (handle B db r).db t i) :
    Above db t i ∧ ∀ a, (handle B db r).res = .ok a → r.table = some t → a < i := by
  rcases handle_step B db r with ⟨hdb, hres⟩ | ⟨t0, ht0, hres, hids, hseq, hother⟩
  · rw [hdb] at h
    exact ⟨h, fun a ha _ => absurd ha (hres a)⟩
  · by_cases ht : t = t0
    · subst ht
      obtain ⟨h1, h2⟩ := h
      rw [hseq] at h1
      rw [hids] at h2
      refine ⟨⟨lt_trans (seq_lt_newRowid _ _) h1, fun j hj => h2 j (List.mem_append_left _ hj)⟩, ?_⟩
      intro a ha _
      rw [hres] at ha
      injection ha with ha
      rw [← ha]
      exact h1
    · obtain ⟨h1, h2⟩ := h
      rw [(hother t ht).2] at h1
      rw [(hother t ht).1] at h2
      refine ⟨⟨h1, h2⟩, ?_⟩
      intro a _ hta
      rw [ht0] at hta
      injection hta with hta
      exact absurd hta.symm ht

theorem above_of_assigned_head (B : Bcrypt) (db : Db) (r : Request) (t : Table) (a : Int)
    (hres : (handle B db r).res = .ok a) (ht : r.table = some t) : Above db t a := by
  rcases handle_step B db r with ⟨_, hno⟩ | ⟨t0, ht0, hres0, _, _, _⟩
  · exact absurd hres (hno a)
  · rw [ht0] at ht
    injection ht with ht
    subst ht
    rw [hres0] at hres
    injection hres with hres
    rw [← hres]
    exact ⟨seq_lt_newRowid _ _, fun j hj => lt_newRowid_of_mem _ _ _ hj⟩

theorem assigned_cons (B : Bcrypt) (t : Table) (db : Db) (r : Request) (rs : List Request) :
    (∃ a, (handle B db r).res = .ok a ∧ r.table = some t ∧
      assigned B t db (r :: rs) = a :: assigned B t (handle B db r).db rs) ∨
    assigned B t db (r :: rs) = assigned B t (handle B db r).db rs := by
  cases hres : (handle B db r).res with
  | ok a =>
    by_cases ht : r.table = some t
    · left
      exact ⟨a, rfl, ht, by simp only [assigned, hres, if_pos ht]⟩
    · right
      simp only [assigned, hres, if_neg ht]
  | _ =>
    right
    simp only [assigned, hres]

theorem assigned_above (B : Bcrypt) (t : Table) (rs : List Request) :
    ∀ db, ∀ i ∈ assigned B t db rs, Above db t i := by
  induction rs with
  | nil => intro db i hi; simp [assigned] at hi
  | cons r rs ih =>
    intro db i hi
    rcases assigned_cons B t db r rs with ⟨a, hres, ht, heq⟩ | heq
    · rw [heq] at hi
      rcases List.mem_cons.mp hi with rfl | htail
      · exact above_of_assigned_head B db r t i hres ht
      · exact (above_of_step B db r t i (ih _ i htail)).1
    · rw [heq] at hi
      exact (above_of_step B db r t i (ih _ i hi)).1

theorem assigned_pairwise (B : Bcrypt) (t : Table) (rs : List Request) :
    ∀ db, (assigned B t db rs).Pairwise (· < ·) := by
  induction rs with
  | nil => intro db; simp [assigned]
  | cons r rs ih =>
    intro db
    rcases assigned_cons B t db r rs with ⟨a, hres, ht, heq⟩ | heq
    · rw [heq, List.pairwise_cons]
      refine ⟨?_, ih _⟩
      intro b hb
      exact (above_of_step B db r t b (assigned_above B t rs _ b hb)).2 a hres ht
    · rw [heq]
      exact ih _

/-- C8: in each of the four tables a successful insert answers an id that is
strictly greater than every id the table holds (and than every id it has ever
held); so the ids handed out in a table along any sequence of requests are
strictly increasing, pairwise distinct, and greater than every id the table
held at the start. -/
theorem ids_strictly_increasing (B : Bcrypt) (db : Db) :
    (∀ body salt i, (postRegistro B db body salt).res = .ok i →
      db.seq_miembros < i ∧ ∀ m ∈ db.miembros, m.id < i) ∧
    (∀ body now i, (postPublicar db body now).res = .ok i →
      db.seq_publicaciones < i ∧ ∀ p ∈ db.publicaciones, p.id < i) ∧
    (∀ body now i, (postComentar db body now).res = .ok i →
      db.seq_comentarios < i ∧ ∀ c ∈ db.comentarios, c.id < i) ∧
    (∀ body now i, (postComentarioSobreMi db body now).res = .ok i →
      db.seq_comentarios_sobre_mi < i ∧ ∀ c ∈ db.comentarios_sobre_mi, c.id < i) ∧
    (∀ t rs, (assigned B t db rs).Pairwise (· < ·) ∧ (assigned B t db rs).Nodup ∧
      ∀ i ∈ assigned B t db rs, db.seq t < i ∧ ∀ j ∈ db.ids t, j < i) := by
  refine ⟨?_, ?_, ?_, ?_, ?_⟩
  · intro body salt i h
    have := above_of_assigned_head B db (.registro body salt) .miembros i h rfl
    exact ⟨this.1, fun m hm => this.2 m.id (List.mem_map_of_mem _ hm)⟩
  · intro body now i h
    have := above_of_assigned_head B db (.publicar body now) .publicaciones i h rfl
    exact ⟨this.1, fun m hm => this.2 m.id (List.mem_map_of_mem _ hm)⟩
  · intro body now i h
    have := above_of_assigned_head B db (.comentar body now) .comentarios i h rfl
    exact ⟨this.1, fun m hm => this.2 m.id (List.mem_map_of_mem _ hm)⟩
  · intro body now i h
    have := above_of_assigned_head B db (.comentarioSobreMi body now) .comentarios_sobre_mi i h rfl
    exact ⟨this.1, fun m hm => this.2 m.id (List.mem_map_of_mem _ hm)⟩
  · intro t rs
    refine ⟨assigned_pairwise B t rs db, ?_, assigned_above B t rs db⟩
    exact (assigned_pairwise B t rs db).imp (fun h => ne_of_lt h)

/-- Witness for C8: the second post on a store whose only post has id 4 gets
id 5, above the stored id and the sequence entry. -/
theorem ids_strictly_increasing_witness :
    (postPublicar ⟨[], [⟨4, 1, "P1", "t1"⟩], [], [], 0, 0, 0, 0⟩
        ⟨some 1, some "P2"⟩ "t2").res = .ok 5 ∧
      (⟨[], [⟨4, 1, "P1", "t1"⟩], [], [], 0, 0, 0, 0⟩ : Db).seq_publicaciones < 5 ∧
      ∀ p ∈ (⟨[], [⟨4, 1, "P1", "t1"⟩], [], [], 0, 0, 0, 0⟩ : Db).publicaciones, p.id < 5 :=
  ⟨by decide,
    (ids_strictly_increasing toyBcrypt ⟨[], [⟨4, 1, "P1", "t1"⟩], [], [], 0, 0, 0, 0⟩).2.1
      ⟨some 1, some "P2"⟩ "t2" 5 (by decide)⟩

/-! ## The store invariant is kept -/

theorem inv_empty : Db.empty.Inv :=
  { miembros_id := List.Pairwise.nil
    miembros_email := List.Pairwise.nil
    miembros_email_ne := fun _ h => by cases h
    publicaciones_id := List.Pairwise.nil
    comentarios_id := List.Pairwise.nil
    comentarios_sobre_mi_id := List.Pairwise.nil }

theorem inv_handle (B : Bcrypt) (db : Db) (r : Request) (h : db.Inv) :
    (handle B db r).db.Inv := by
  cases r with
  | registro body salt =>
    rcases postRegistro_cases B db body salt with h1 | h1 | ⟨n, e, p, -, he, -, -, hfresh, h1⟩
    · simp only [handle]; rw [h1]; exact h
    · simp only [handle]; rw [h1]; exact h
    · simp only [handle]; rw [h1]
      refine ⟨pairwise_append_newRowid Miembro.id _ _ _ h.miembros_id rfl, ?_, ?_,
        h.publicaciones_id, h.comentarios_id, h.comentarios_sobre_mi_id⟩
      · rw [List.pairwise_append]
        refine ⟨h.miembros_email, List.pairwise_singleton _ _, ?_⟩
        intro a ha b hb
        rw [List.mem_singleton] at hb
        subst hb
        exact hfresh a ha
      · intro m hm
        rcases List.mem_append.mp hm with hm | hm
        · exact h.miembros_email_ne m hm
        · rw [List.mem_singleton] at hm
          subst hm
          exact he
  | login body => simp only [handle]; rw [postLogin_db]; exact h
  | buscarUsuario nombre => simp only [handle]; rw [getBuscarUsuario_db]; exact h
  | publicar body now =>
    rcases postPublicar_cases db body now with h1 | ⟨u, c, -, -, -, h1⟩
    · simp only [handle]; rw [h1]; exact h
    · simp only [handle]; rw [h1]
      exact ⟨h.miembros_id, h.miembros_email, h.miembros_email_ne,
        pairwise_append_newRowid Publicacion.id _ _ _ h.publicaciones_id rfl,
        h.comentarios_id, h.comentarios_sobre_mi_id⟩
  | publicaciones => exact h
  | comentar body now =>
    rcases postComentar_cases db body now with h1 | ⟨u, p, c, -, -, -, -, h1⟩
    · simp only [handle]; rw [h1]; exact h
    · simp only [handle]; rw [h1]
      exact ⟨h.miembros_id, h.miembros_email, h.miembros_email_ne, h.publicaciones_id,
        pairwise_append_newRowid Comentario.id _ _ _ h.comentarios_id rfl,
        h.comentarios_sobre_mi_id⟩
  | comentarios x => exact h
  | comentarioSobreMi body now =>
    rcases postComentarioSobreMi_cases db body now with h1 | ⟨u, c, -, -, -, h1⟩
    · simp only [handle]; rw [h1]; exact h
    · simp only [handle]; rw [h1]
      exact ⟨h.miembros_id, h.miembros_email, h.miembros_email_ne, h.publicaciones_id,
        h.comentarios_id,
        pairwise_append_newRowid ComentarioSobreMi.id _ _ _ h.comentarios_sobre_mi_id rfl⟩
  | comentariosSobreMi => exact h

theorem inv_run (B : Bcrypt) (rs : List Request) : ∀ db : Db, db.Inv → (run B db rs).Inv := by
  induction rs with
  | nil => intro db h; exact h
  | cons r rs ih => intro db h; exact ih _ (inv_handle B db r h)

/-- Every database the program can produce from a fresh file satisfies the
store invariant. -/
theorem inv_of_reachable (B : Bcrypt) (db : Db) (h : Reachable B db) : db.Inv := by
  obtain ⟨rs, rfl⟩ := h
  exact inv_run B rs Db.empty inv_empty

/-- C10: the five reads (`login`, `findByName`, `listPosts`,
`listCommentsForPost`, `listProfileComments`) leave the store as it was on
every input and outcome, and each of the four creates, when it succeeds with
id `i`, appends exactly one row, of id `i`, to its own table and leaves the
other three tables as they were. -/
theorem reads_and_creates_frame (B : Bcrypt) (db : Db) :
    (∀ body, (postLogin B db body).db = db) ∧
    (∀ nombre, (getBuscarUsuario db nombre).db = db) ∧
    (getPublicaciones db).db = db ∧
    (∀ x, (getComentarios db x).db = db) ∧
    (getComentariosSobreMi db).db = db ∧
    (∀ body salt i, (postRegistro B db body salt).res = .ok i →
      (∃ row : Miembro, row.id = i ∧
        (postRegistro B db body salt).db.miembros = db.miembros ++ [row]) ∧
      (postRegistro B db body salt).db.publicaciones = db.publicaciones ∧
      (postRegistro B db body salt).db.comentarios = db.comentarios ∧
      (postRegistro B db body salt).db.comentarios_sobre_mi = db.comentarios_sobre_mi) ∧
    (∀ body now i, (postPublicar db body now).res = .ok i →
      (∃ row : Publicacion, row.id = i ∧
        (postPublicar db body now).db.publicaciones = db.publicaciones ++ [row]) ∧
      (postPublicar db body now).db.miembros = db.miembros ∧
      (postPublicar db body now).db.comentarios = db.comentarios ∧
      (postPublicar db body now).db.comentarios_sobre_mi = db.comentarios_sobre_mi) ∧
    (∀ body now i, (postComentar db body now).res = .ok i →
      (∃ row : Comentario, row.id = i ∧
        (postComentar db body now).db.comentarios = db.comentarios ++ [row]) ∧
      (postComentar db body now).db.miembros = db.miembros ∧
      (postComentar db body now).db.publicaciones = db.publicaciones ∧
      (postComentar db body now).db.comentarios_sobre_mi = db.comentarios_sobre_mi) ∧
    (∀ body now i, (postComentarioSobreMi db body now).res = .ok i →
      (∃ row : ComentarioSobreMi, row.id = i ∧
        (postComentarioSobreMi db body now).db.comentarios_sobre_mi
          = db.comentarios_sobre_mi ++ [row]) ∧
      (postComentarioSobreMi db body now).db.miembros = db.miembros ∧
      (postComentarioSobreMi db body now).db.publicaciones = db.publicaciones ∧
      (postComentarioSobreMi db body now).db.comentarios = db.comentarios) := by
  refine ⟨postLogin_db B db, getBuscarUsuario_db db, getPublicaciones_db db,
    getComentarios_db db, getComentariosSobreMi_db db, ?_, ?_, ?_, ?_⟩
  · intro body salt i hi
    rcases postRegistro_cases B db body salt with h | h | ⟨n, e, p, -, -, -, -, -, h⟩
    · rw [h] at hi; cases hi
    · rw [h] at hi; cases hi
    · rw [h] at hi ⊢
      injection hi with hi
      exact ⟨⟨_, hi, rfl⟩, rfl, rfl, rfl⟩
  · intro body now i hi
    rcases postPublicar_cases db body now with h | ⟨u, c, -, -, -, h⟩
    · rw [h] at hi; cases hi
    · rw [h] at hi ⊢
      injection hi with hi
      exact ⟨⟨_, hi, rfl⟩, rfl, rfl, rfl⟩
  · intro body now i hi
    rcases postComentar_cases db body now with h | ⟨u, p, c, -, -, -, -, h⟩
    · rw [h] at hi; cases hi
    · rw [h] at hi ⊢
      injection hi with hi
      exact ⟨⟨_, hi, rfl⟩, rfl, rfl, rfl⟩
  · intro body now i hi
    rcases postComentarioSobreMi_cases db body now with h | ⟨u, c, -, -, -, h⟩
    · rw [h] at hi; cases hi
    · rw [h] at hi ⊢
      injection hi with hi
      exact ⟨⟨_, hi, rfl⟩, rfl, rfl, rfl⟩

/-- Witness for C10: Ana comments on post 1 of a store with one member, one
post and no comment yet. -/
theorem reads_and_creates_frame_witness :
    (∃ row : Comentario, row.id = 1 ∧
      (postComentar ⟨[⟨1, "Ana", "ana@x.com", "3pw1"⟩], [⟨1, 1, "P1", "t1"⟩], [], [], 1, 1, 0, 0⟩
        ⟨some 1, some 1, some "hola"⟩ "t2").db.comentarios
        = (⟨[⟨1, "Ana", "ana@x.com", "3pw1"⟩], [⟨1, 1, "P1", "t1"⟩], [], [], 1, 1, 0, 0⟩ :
            Db).comentarios ++ [row]) ∧
      (postComentar ⟨[⟨1, "Ana", "ana@x.com", "3pw1"⟩], [⟨1, 1, "P1", "t1"⟩], [], [], 1, 1, 0, 0⟩
        ⟨some 1, some 1, some "hola"⟩ "t2").db.miembros = [⟨1, "Ana", "ana@x.com", "3pw1"⟩] ∧
      (postComentar ⟨[⟨1, "Ana", "ana@x.com", "3pw1"⟩], [⟨1, 1, "P1", "t1"⟩], [], [], 1, 1, 0, 0⟩
        ⟨some 1, some 1, some "hola"⟩ "t2").db.publicaciones = [⟨1, 1, "P1", "t1"⟩] ∧
      (postComentar ⟨[⟨1, "Ana", "ana@x.com", "3pw1"⟩], [⟨1, 1, "P1", "t1"⟩], [], [], 1, 1, 0, 0⟩
        ⟨some 1, some 1, some "hola"⟩ "t2").db.comentarios_sobre_mi = [] :=
  (reads_and_creates_frame toyBcrypt
    ⟨[⟨1, "Ana", "ana@x.com", "3pw1"⟩], [⟨1, 1, "P1", "t1"⟩], [], [], 1, 1, 0, 0⟩).2.2.2.2.2.2.2.1
    ⟨some 1, some 1, some "hola"⟩ "t2" 1 (by decide)

/-! ## Joins and ordering -/

/-- A join of a table with ascending keys against a table with distinct keys
gives rows with ascending ids. -/
theorem join_pairwise {α ρ : Type} (key : α → Int) (rid : ρ → Int) (f : α → List ρ)
    (l : List α) (hl : l.Pairwise (fun a b => key a < key b))
    (hkey : ∀ a ∈ l, ∀ r ∈ f a, rid r = key a)
    (hone : ∀ a ∈ l, (f a).Pairwise (fun r s => rid r < rid s)) :
    (l.flatMap f).Pairwise (fun r s => rid r < rid s) := by
  induction l with
  | nil => simp
  | cons a l ih =>
    rw [List.pairwise_cons] at hl
    rw [List.flatMap_cons, List.pairwise_append]
    refine ⟨hone a (List.mem_cons_self _ _),
      ih hl.2 (fun b hb => hkey b (List.mem_cons_of_mem _ hb))
        (fun b hb => hone b (List.mem_cons_of_mem _ hb)), ?_⟩
    intro r hr s hs
    obtain ⟨b, hb, hsb⟩ := List.mem_flatMap.mp hs
    rw [hkey a (List.mem_cons_self _ _) r hr, hkey b (List.mem_cons_of_mem _ hb) s hsb]
    exact hl.1 b hb

/-- At most one member matches a `usuario_id`, so the rows one parent row
contributes to a join are (vacuously) ascending. -/
theorem match_pairwise {ρ : Type} (rid : ρ → Int) (ms : List Miembro) (k : Int)
    (mk : Miembro → ρ) (hms : ms.Pairwise (fun a b => a.id < b.id)) :
    ((ms.filter fun m => decide (k = m.id)).map mk).Pairwise (fun r s => rid r < rid s) := by
  rw [List.pairwise_map]
  have hsub : (ms.filter fun m => decide (k = m.id)).Pairwise (fun a b => a.id < b.id) :=
    hms.sublist (List.filter_sublist _)
  refine hsub.imp_of_mem ?_
  intro a b ha hb hab
  have hak : k = a.id := by simpa using (List.mem_filter.mp ha).2
  have hbk : k = b.id := by simpa using (List.mem_filter.mp hb).2
  omega

theorem joinComentarios_pairwise (db : Db) (x : Int) (h : db.Inv) :
    (db.joinComentarios x).Pairwise (fun r s => r.id < s.id) := by
  unfold Db.joinComentarios
  refine join_pairwise Comentario.id ComentarioRow.id _ _
    (h.comentarios_id.sublist (List.filter_sublist _)) ?_ ?_
  · intro c _ r hr
    obtain ⟨m, _, rfl⟩ := List.mem_map.mp hr
    rfl
  · intro c _
    exact match_pairwise ComentarioRow.id db.miembros c.usuario_id _ h.miembros_id

theorem joinPublicaciones_pairwise (db : Db) (h : db.Inv) :
    db.joinPublicaciones.Pairwise (fun r s => r.id < s.id) := by
  unfold Db.joinPublicaciones
  refine join_pairwise Publicacion.id PublicacionRow.id _ _ h.publicaciones_id ?_ ?_
  · intro c _ r hr
    obtain ⟨m, _, rfl⟩ := List.mem_map.mp hr
    rfl
  · intro c _
    exact match_pairwise PublicacionRow.id db.miembros c.usuario_id _ h.miembros_id

theorem sort_comentarios_strict (rows : List ComentarioRow)
    (h : rows.Pairwise (fun r s => r.id < s.id)) :
    (rows.insertionSort ComentarioRow.desc).Pairwise (fun r s => s.id < r.id) := by
  have hne : (rows.insertionSort ComentarioRow.desc).Pairwise (fun r s => r.id ≠ s.id) :=
    (List.Perm.pairwise_iff (fun hxy => Ne.symm hxy)
      (List.perm_insertionSort ComentarioRow.desc rows)).mpr (h.imp (fun hlt => ne_of_lt hlt))
  have hsorted : (rows.insertionSort ComentarioRow.desc).Pairwise ComentarioRow.desc :=
    List.sorted_insertionSort ComentarioRow.desc rows
  exact (hsorted.and hne).imp (fun hrs => lt_of_le_of_ne hrs.1 (Ne.symm hrs.2))

theorem sort_publicaciones_strict (rows : List PublicacionRow)
    (h : rows.Pairwise (fun r s => r.id < s.id)) :
    (rows.insertionSort PublicacionRow.desc).Pairwise (fun r s => s.id < r.id) := by
  have hne : (rows.insertionSort PublicacionRow.desc).Pairwise (fun r s => r.id ≠ s.id) :=
    (List.Perm.pairwise_iff (fun hxy => Ne.symm hxy)
      (List.perm_insertionSort PublicacionRow.desc rows)).mpr (h.imp (fun hlt => ne_of_lt hlt))
  have hsorted : (rows.insertionSort PublicacionRow.desc).Pairwise PublicacionRow.desc :=
    List.sorted_insertionSort PublicacionRow.desc rows
  exact (hsorted.and hne).imp (fun hrs => lt_of_le_of_ne hrs.1 (Ne.symm hrs.2))

theorem mem_joinComentarios (db : Db) (x : Int) (r : ComentarioRow) :
    r ∈ db.joinComentarios x ↔
      ∃ c ∈ db.comentarios, c.publicacion_id = x ∧ ∃ m ∈ db.miembros, m.id = c.usuario_id ∧
        r = ⟨c.id, c.comentario, c.fecha, m.nombre⟩ := by
  unfold Db.joinComentarios
  simp only [List.mem_flatMap, List.mem_filter, List.mem_map, decide_eq_true_eq]
  constructor
  · rintro ⟨c, ⟨hc, hx⟩, m, ⟨hm, hcm⟩, rfl⟩
    exact ⟨c, hc, hx, m, hm, hcm.symm, rfl⟩
  · rintro ⟨c, hc, hx, m, hm, hcm, rfl⟩
    exact ⟨c, ⟨hc, hx⟩, m, ⟨hm, hcm.symm⟩, rfl⟩

theorem mem_joinPublicaciones (db : Db) (r : PublicacionRow) :
    r ∈ db.joinPublicaciones ↔
      ∃ p ∈ db.publicaciones, ∃ m ∈ db.miembros, m.id = p.usuario_id ∧
        r = ⟨p.id, p.contenido, p.fecha, m.nombre⟩ := by
  unfold Db.joinPublicaciones
  simp only [List.mem_flatMap, List.mem_filter, List.mem_map, decide_eq_true_eq]
  constructor
  · rintro ⟨p, hp, m, ⟨hm, hpm⟩, rfl⟩
    exact ⟨p, hp, m, hm, hpm.symm, rfl⟩
  · rintro ⟨p, hp, m, hm, hpm, rfl⟩
    exact ⟨p, hp, m, ⟨hm, hpm.symm⟩, rfl⟩

/-- C5: for every store and every post id `x`, `GET /api/comentarios/x`
answers an array (never an error envelope) each of whose entries is a stored
comment with `publicacion_id = x`, carrying that comment's id, text and date
and the name of the member who wrote it; on a store satisfying the invariant
the entries are in strictly descending order of comment id; and the array is
empty when no stored comment has `publicacion_id = x`, whether or not a post
with id `x` exists. -/
theorem comentarios_for_post (db : Db) (x : Int) :
    ∃ rows, (getComentarios db x).res = .comentarios rows ∧
      (∀ r ∈ rows, ∃ c ∈ db.comentarios, c.publicacion_id = x ∧ r.id = c.id ∧
        r.comentario = c.comentario ∧ r.fecha = c.fecha ∧
        ∃ m ∈ db.miembros, m.id = c.usuario_id ∧ r.nombre = m.nombre) ∧
      (db.Inv → rows.Pairwise (fun a b => b.id < a.id)) ∧
      ((∀ c ∈ db.comentarios, c.publicacion_id ≠ x) → rows = []) := by
  refine ⟨(db.joinComentarios x).insertionSort ComentarioRow.desc, rfl, ?_, ?_, ?_⟩
  · intro r hr
    have hr' : r ∈ db.joinComentarios x :=
      (List.perm_insertionSort ComentarioRow.desc _).mem_iff.mp hr
    obtain ⟨c, hc, hx, m, hm, hcm, rfl⟩ := (mem_joinComentarios db x r).mp hr'
    exact ⟨c, hc, hx, rfl, rfl, rfl, m, hm, hcm, rfl⟩
  · intro hinv
    exact sort_comentarios_strict _ (joinComentarios_pairwise db x hinv)
  · intro hnone
    have hnil : db.joinComentarios x = [] := by
      rw [List.eq_nil_iff_forall_not_mem]
      intro r hr
      obtain ⟨c, hc, hx, -⟩ := (mem_joinComentarios db x r).mp hr
      exact hnone c hc hx
    rw [hnil]
    rfl

/-- Witness for C5: the comments of post 1 on a store with two comments on it
come newest first, and post 9, which does not exist, has an empty list. -/
theorem comentarios_for_post_witness :
    (∃ rows, (getComentarios ⟨[⟨1, "Ana", "ana@x.com", "3pw1"⟩], [⟨1, 1, "P1", "t1"⟩],
        [⟨1, 1, 1, "uno", "t2"⟩, ⟨2, 1, 1, "dos", "t3"⟩], [], 1, 1, 2, 0⟩ 1).res
        = .comentarios rows ∧ rows.Pairwise (fun a b => b.id < a.id)) ∧
    ∃ rows, (getComentarios ⟨[⟨1, "Ana", "ana@x.com", "3pw1"⟩], [⟨1, 1, "P1", "t1"⟩],
        [⟨1, 1, 1, "uno", "t2"⟩, ⟨2, 1, 1, "dos", "t3"⟩], [], 1, 1, 2, 0⟩ 9).res
        = .comentarios rows ∧ rows = [] := by
  obtain ⟨rows, hres, -, hord, -⟩ := comentarios_for_post
    ⟨[⟨1, "Ana", "ana@x.com", "3pw1"⟩], [⟨1, 1, "P1", "t1"⟩],
      [⟨1, 1, 1, "uno", "t2"⟩, ⟨2, 1, 1, "dos", "t3"⟩], [], 1, 1, 2, 0⟩ 1
  obtain ⟨rows9, hres9, -, -, hempty⟩ := comentarios_for_post
    ⟨[⟨1, "Ana", "ana@x.com", "3pw1"⟩], [⟨1, 1, "P1", "t1"⟩],
      [⟨1, 1, 1, "uno", "t2"⟩, ⟨2, 1, 1, "dos", "t3"⟩], [], 1, 1, 2, 0⟩ 9
  exact ⟨⟨rows, hres,
      hord ⟨by decide, by decide, by decide, by decide, by decide, by decide⟩⟩,
    ⟨rows9, hres9, hempty (by decide)⟩⟩

/-! ## The feed -/

theorem filter_id_eq_singleton (ms : List Miembro) (m : Miembro)
    (hms : ms.Pairwise (fun a b => a.id < b.id)) (hm : m ∈ ms) :
    (ms.filter fun x => decide (m.id = x.id)) = [m] := by
  induction ms with
  | nil => cases hm
  | cons a l ih =>
    rw [List.pairwise_cons] at hms
    rcases List.mem_cons.mp hm with rfl | hl
    · have hnil : (l.filter fun x => decide (m.id = x.id)) = [] := by
        rw [List.filter_eq_nil_iff]
        intro b hb
        have := hms.1 b hb
        simp only [decide_eq_true_eq]
        omega
      simp [hnil]
    · have hne : ¬ m.id = a.id := by
        have := hms.1 m hl
        omega
      rw [List.filter_cons_of_neg (by simpa using hne)]
      exact ih hms.2 hl

theorem join_ids_of_refInt {ρ : Type} (rid : ρ → Int) (ms : List Miembro) (ps : List Publicacion)
    (mk : Publicacion → Miembro → ρ) (hmk : ∀ p m, rid (mk p m) = p.id)
    (hms : ms.Pairwise (fun a b => a.id < b.id))
    (href : ∀ p ∈ ps, ∃ m ∈ ms, m.id = p.usuario_id) :
    (ps.flatMap fun p => (ms.filter fun m => decide (p.usuario_id = m.id)).map (mk p)).map rid
      = ps.map (·.id) := by
  induction ps with
  | nil => rfl
  | cons p l ih =>
    obtain ⟨m, hm, hmp⟩ := href p (List.mem_cons_self _ _)
    rw [List.flatMap_cons, List.map_append, ih (fun q hq => href q (List.mem_cons_of_mem _ hq)),
      ← hmp, filter_id_eq_singleton ms m hms hm]
    simp [hmk]

/-- On a store that satisfies the invariant and referential integrity, the
feed has exactly one entry per stored post, newest first, each with the name
of the post's author. -/
theorem publicaciones_of_refInt (db : Db) (hinv : db.Inv) (href : db.RefInt) :
    ∃ rows, (getPublicaciones db).res = .publicaciones rows ∧
      rows.map (·.id) = (db.publicaciones.map (·.id)).reverse ∧
      rows.Pairwise (fun a b => b.id < a.id) ∧
      ∀ r ∈ rows, ∃ p ∈ db.publicaciones, ∃ m ∈ db.miembros, m.id = p.usuario_id ∧
        r = ⟨p.id, p.contenido, p.fecha, m.nombre⟩ := by
  have hstrict := sort_publicaciones_strict _ (joinPublicaciones_pairwise db hinv)
  refine ⟨db.joinPublicaciones.insertionSort PublicacionRow.desc, rfl, ?_, hstrict, ?_⟩
  · have hperm : ((db.joinPublicaciones.insertionSort PublicacionRow.desc).map (·.id)).Perm
        (db.publicaciones.map (·.id)).reverse := by
      refine ((List.perm_insertionSort PublicacionRow.desc _).map _).trans ?_
      have hids : db.joinPublicaciones.map (·.id) = db.publicaciones.map (·.id) :=
        join_ids_of_refInt PublicacionRow.id db.miembros db.publicaciones
          (fun p m => ⟨p.id, p.contenido, p.fecha, m.nombre⟩) (fun _ _ => rfl)
          hinv.miembros_id href.1
      rw [hids]
      exact (List.reverse_perm _).symm
    have hs1 : ((db.joinPublicaciones.insertionSort PublicacionRow.desc).map (·.id)).Sorted
        (· > ·) := by
      rw [List.Sorted, List.pairwise_map]
      exact hstrict
    have hs2 : ((db.publicaciones.map (·.id)).reverse).Sorted (· > ·) := by
      rw [List.Sorted, List.pairwise_reverse, List.pairwise_map]
      exact hinv.publicaciones_id
    exact List.eq_of_perm_of_sorted hperm hs1 hs2
  · intro r hr
    have hr' : r ∈ db.joinPublicaciones :=
      (List.perm_insertionSort PublicacionRow.desc _).mem_iff.mp hr
    exact (mem_joinPublicaciones db r).mp hr'

/-- On a store that satisfies the invariant, the feed is in strictly descending
order of post id and every entry is a stored post joined with its author. -/
theorem publicaciones_sound (db : Db) (hinv : db.Inv) :
    ∃ rows, (getPublicaciones db).res = .publicaciones rows ∧
      rows.Pairwise (fun a b => b.id < a.id) ∧
      ∀ r, r ∈ rows ↔ ∃ p ∈ db.publicaciones, ∃ m ∈ db.miembros, m.id = p.usuario_id ∧
        r = ⟨p.id, p.contenido, p.fecha, m.nombre⟩ := by
  refine ⟨db.joinPublicaciones.insertionSort PublicacionRow.desc, rfl,
    sort_publicaciones_strict _ (joinPublicaciones_pairwise db hinv), ?_⟩
  intro r
  rw [(List.perm_insertionSort PublicacionRow.desc _).mem_iff]
  exact mem_joinPublicaciones db r

/-- With foreign keys off, `POST /api/publicar` succeeds for every non-zero
`usuario_id` and non-empty `contenido`, whether or not a member has that id. -/
theorem postPublicar_succeeds (db : Db) (u : Int) (c now : String) (hu : u ≠ 0) (hc : c ≠ "") :
    ∃ i, (postPublicar db ⟨some u, some c⟩ now).res = .ok i ∧
      (postPublicar db ⟨some u, some c⟩ now).db.publicaciones
        = db.publicaciones ++ [⟨i, u, c, now⟩] := by
  rcases postPublicar_cases db ⟨some u, some c⟩ now with h | ⟨u', c', -, -, hb, h⟩
  · have hv : (notInt (some u) || notStr (some c)) = false := by
      simp [notInt_some, notStr_some, hu, hc]
    rw [postPublicar] at h
    simp only [hv, Bool.false_eq_true, if_false, Option.getD_some, insertPublicacion_eq] at h
    cases h
  · injection hb with hu' hc'
    injection hu' with hu'
    injection hc' with hc'
    subst hu' hc'
    rw [h]
    exact ⟨_, rfl, rfl⟩

/-- C6 does not hold of the code, which leaves foreign keys unenforced: on the
fresh database a post whose
`usuario_id` is 7, the id of no member, is answered `{success: true, id: 1}`
and stored, and a comment by member 7 on post 9, neither of which exists, is
answered `{success: true, id: 1}` and stored; both resulting databases are
reachable and break referential integrity. -/
theorem dangling_reference_accepted :
    (postPublicar Db.empty ⟨some 7, some "hola"⟩ "t").res = .ok 1 ∧
    (postPublicar Db.empty ⟨some 7, some "hola"⟩ "t").db.publicaciones
      = [⟨1, 7, "hola", "t"⟩] ∧
    (postPublicar Db.empty ⟨some 7, some "hola"⟩ "t").db.miembros = [] ∧
    Reachable toyBcrypt (postPublicar Db.empty ⟨some 7, some "hola"⟩ "t").db ∧
    ¬ (postPublicar Db.empty ⟨some 7, some "hola"⟩ "t").db.RefInt ∧
    (postComentar Db.empty ⟨some 7, some 9, some "hola"⟩ "t").res = .ok 1 ∧
    (postComentar Db.empty ⟨some 7, some 9, some "hola"⟩ "t").db.comentarios
      = [⟨1, 7, 9, "hola", "t"⟩] ∧
    Reachable toyBcrypt (postComentar Db.empty ⟨some 7, some 9, some "hola"⟩ "t").db ∧
    ¬ (postComentar Db.empty ⟨some 7, some 9, some "hola"⟩ "t").db.RefInt :=
  ⟨by decide, by decide, by decide, ⟨[.publicar ⟨some 7, some "hola"⟩ "t"], rfl⟩, by decide,
    by decide, by decide, ⟨[.comentar ⟨some 7, some 9, some "hola"⟩ "t"], rfl⟩, by decide⟩

/-- C4 does not hold of the code, which can store a post without an author:
Ana registers and posts P1, then P2
is posted with `usuario_id` 7, the id of no member; the second post succeeds
with id 2 and is stored, yet the feed lists P1 only. -/
theorem feed_omits_post_without_author :
    (handle toyBcrypt
      (run toyBcrypt Db.empty
        [.registro ⟨some "Ana", some "ana@x.com", some "pw1"⟩ 3,
         .publicar ⟨some 1, some "P1"⟩ "t1"])
      (.publicar ⟨some 7, some "P2"⟩ "t2")).res = .ok 2 ∧
    (run toyBcrypt Db.empty
      [.registro ⟨some "Ana", some "ana@x.com", some "pw1"⟩ 3,
       .publicar ⟨some 1, some "P1"⟩ "t1",
       .publicar ⟨some 7, some "P2"⟩ "t2"]).publicaciones
      = [⟨1, 1, "P1", "t1"⟩, ⟨2, 7, "P2", "t2"⟩] ∧
    (getPublicaciones
      (run toyBcrypt Db.empty
        [.registro ⟨some "Ana", some "ana@x.com", some "pw1"⟩ 3,
         .publicar ⟨some 1, some "P1"⟩ "t1",
         .publicar ⟨some 7, some "P2"⟩ "t2"])).res
      = .publicaciones [⟨1, "P1", "t1", "Ana"⟩] :=
  ⟨by decide, by decide, by decide⟩

end Server
